import Mathlib

/-
Verification of the title-extraction and deduplication pipeline of the
XPMoviePosterGen repository.

The Python sources are shallowly embedded as executable Lean functions:
  - strings are List Char / String (Python slicing and len count code points,
    as Lean does);
  - each regular expression used by the source is hand-compiled to an
    explicit scanning function on List Char, with the original pattern
    quoted in a comment next to it (re.search finds the leftmost match,
    re.sub removes or replaces every non-overlapping match left to right,
    continuing after each match and evaluating word boundaries against the
    original text);
  - time.time() is modelled as a Nat (seconds); the one subtraction the
    code performs, current_time - last_processed < cooldown, agrees with
    truncated Nat subtraction for every clock ordering, because a negative
    Python difference and a truncated-to-zero Lean difference are both
    below the positive cooldown;
  - the MongoDB collections are modelled as association lists inside an
    explicit store value that can also be disconnected (collection is None)
    or failing (every operation raises), mirroring the try/except blocks of
    movie_data.py;
  - Python str.lower / str.strip and the character classes \s \w \d of the
    regexes are modelled on ASCII (the repository only feeds ASCII release
    names through these paths; non-ASCII characters are carried through
    unchanged).
-/

/-! ## Character helpers -/

/-- Python whitespace (the re module class \s and str.strip default), ASCII part. -/
def pyWS (c : Char) : Bool :=
  c == ' ' || c == '\t' || c == '\n' || c == '\r' || c == '\x0b' || c == '\x0c'

/-- ASCII decimal digit, the regex class \d. -/
def pyDigit (c : Char) : Bool :=
  '0' ≤ c && c ≤ '9'

/-- Regex word character \w (ASCII): letters, digits and underscore. -/
def pyWord (c : Char) : Bool :=
  ('a' ≤ c && c ≤ 'z') || ('A' ≤ c && c ≤ 'Z') || pyDigit c || c == '_'

/-- The regex class [A-Za-z0-9] used by the filename title pattern. -/
def pyAlnum (c : Char) : Bool :=
  ('a' ≤ c && c ≤ 'z') || ('A' ≤ c && c ≤ 'Z') || pyDigit c

/-- Python str.lower on an ASCII character, written as an explicit 26-way
case split so that facts about it are provable by case analysis. -/
def pyToLower (c : Char) : Char :=
  if c = 'A' then 'a' else if c = 'B' then 'b' else if c = 'C' then 'c'
  else if c = 'D' then 'd' else if c = 'E' then 'e' else if c = 'F' then 'f'
  else if c = 'G' then 'g' else if c = 'H' then 'h' else if c = 'I' then 'i'
  else if c = 'J' then 'j' else if c = 'K' then 'k' else if c = 'L' then 'l'
  else if c = 'M' then 'm' else if c = 'N' then 'n' else if c = 'O' then 'o'
  else if c = 'P' then 'p' else if c = 'Q' then 'q' else if c = 'R' then 'r'
  else if c = 'S' then 's' else if c = 'T' then 't' else if c = 'U' then 'u'
  else if c = 'V' then 'v' else if c = 'W' then 'w' else if c = 'X' then 'x'
  else if c = 'Y' then 'y' else if c = 'Z' then 'z' else c

/-- Numeric value of an ASCII digit character. -/
def digitVal (c : Char) : Nat :=
  c.toNat - '0'.toNat

/-! ## Generic string (List Char) operations -/

/-- Python str.strip (both ends, default whitespace). -/
def pyStripL (l : List Char) : List Char :=
  ((l.dropWhile pyWS).reverse.dropWhile pyWS).reverse

/-- Python str.lower, character by character (ASCII). -/
def pyLowerL (l : List Char) : List Char :=
  l.map pyToLower

/-- String-level normalization series_name.lower().strip() used throughout
movie_data.py and channel_handler.py. -/
def pyNormalize (s : String) : String :=
  String.mk (pyStripL (pyLowerL s.data))

/-- The substitution re.sub(r'\s+', ' ', text): every maximal whitespace run
becomes a single space.  The Bool argument records whether the previous
character was part of a whitespace run already emitted. -/
def collapseWSAux : Bool → List Char → List Char
  | _, [] => []
  | inRun, c :: cs =>
    if pyWS c then
      if inRun then collapseWSAux true cs else ' ' :: collapseWSAux true cs
    else c :: collapseWSAux false cs

def collapseWS (l : List Char) : List Char :=
  collapseWSAux false l

/-- The substitution re.sub(r'http\S+', '', text).  The pattern needs the
literal http followed by at least one non-space character; the match then
greedily consumes every following non-space character, and scanning resumes
after the match.  The Bool argument is the skipping state while the
non-space run of a current match is being consumed. -/
def subHttpAux : Bool → List Char → List Char
  | _, [] => []
  | true, c :: cs => if pyWS c then c :: subHttpAux false cs else subHttpAux true cs
  | false, 'h' :: 't' :: 't' :: 'p' :: c :: cs =>
    if pyWS c then 'h' :: subHttpAux false ('t' :: 't' :: 'p' :: c :: cs)
    else subHttpAux true cs
  | false, c :: cs => c :: subHttpAux false cs

def subHttp (l : List Char) : List Char :=
  subHttpAux false l

/-! ## Year extraction, file_detector._extract_title_and_year

The five patterns of year_patterns (config.py YEAR_PATTERNS) are compiled
one by one.  re.search yields the first (leftmost) match; on success the
code removes every occurrence of the same pattern with re.sub and breaks. -/

/-- Value of a four-digit year d1 d2 d3 d4. -/
def yearVal (d1 d2 d3 d4 : Char) : Nat :=
  1000 * digitVal d1 + 100 * digitVal d2 + 10 * digitVal d3 + digitVal d4

/-- Search for the pattern \((\d{4})\): a parenthesized four-digit group
anywhere in the text, leftmost match. -/
def findParenYear : List Char → Option Nat
  | '(' :: d1 :: d2 :: d3 :: d4 :: ')' :: rest =>
    if pyDigit d1 && pyDigit d2 && pyDigit d3 && pyDigit d4 then
      some (yearVal d1 d2 d3 d4)
    else findParenYear (d1 :: d2 :: d3 :: d4 :: ')' :: rest)
  | _ :: cs => findParenYear cs
  | [] => none

/-- re.sub(r'\((\d{4})\)', '', text): every parenthesized four-digit group
is removed, scanning left to right. -/
def subParenYear : List Char → List Char
  | '(' :: d1 :: d2 :: d3 :: d4 :: ')' :: rest =>
    if pyDigit d1 && pyDigit d2 && pyDigit d3 && pyDigit d4 then
      subParenYear rest
    else '(' :: subParenYear (d1 :: d2 :: d3 :: d4 :: ')' :: rest)
  | c :: cs => c :: subParenYear cs
  | [] => []

/-- Search for \[(\d{4})\]: a bracketed four-digit group, leftmost match. -/
def findBrackYear : List Char → Option Nat
  | '[' :: d1 :: d2 :: d3 :: d4 :: ']' :: rest =>
    if pyDigit d1 && pyDigit d2 && pyDigit d3 && pyDigit d4 then
      some (yearVal d1 d2 d3 d4)
    else findBrackYear (d1 :: d2 :: d3 :: d4 :: ']' :: rest)
  | _ :: cs => findBrackYear cs
  | [] => none

/-- re.sub(r'\[(\d{4})\]', '', text). -/
def subBrackYear : List Char → List Char
  | '[' :: d1 :: d2 :: d3 :: d4 :: ']' :: rest =>
    if pyDigit d1 && pyDigit d2 && pyDigit d3 && pyDigit d4 then
      subBrackYear rest
    else '[' :: subBrackYear (d1 :: d2 :: d3 :: d4 :: ']' :: rest)
  | c :: cs => c :: subBrackYear cs
  | [] => []

/-- Drop trailing whitespace. -/
def dropTrailWS (l : List Char) : List Char :=
  (l.reverse.dropWhile pyWS).reverse

/-- Search for \s+(\d{4})\s*$: the pattern matches iff after discarding
trailing whitespace the text ends in exactly four digits preceded by a
whitespace character (a fifth digit would make \d{4} fail at the only
possible start positions). -/
def findTrailYear (l : List Char) : Option Nat :=
  match (dropTrailWS l).reverse with
  | d4 :: d3 :: d2 :: d1 :: w :: _ =>
    if pyDigit d1 && pyDigit d2 && pyDigit d3 && pyDigit d4 && pyWS w then
      some (yearVal d1 d2 d3 d4)
    else none
  | _ => none

/-- re.sub(r'\s+(\d{4})\s*$', '', text): since every match of this pattern
reaches the end of the text, there is exactly one non-overlapping match; the
match consumes the whole whitespace run before the digits (leftmost start),
the four digits, and the trailing whitespace. -/
def subTrailYear (l : List Char) : List Char :=
  match findTrailYear l with
  | some _ => dropTrailWS ((dropTrailWS l).take ((dropTrailWS l).length - 4))
  | none => l

/-- Search for \s+\((\d{4})\)\s*$, fourth pattern of YEAR_PATTERNS.  (It can
only be reached when the first pattern \((\d{4})\) did not match, so it
never fires in the composed extractor, but it is modelled faithfully.) -/
def findTrailParenYear (l : List Char) : Option Nat :=
  match (dropTrailWS l).reverse with
  | ')' :: d4 :: d3 :: d2 :: d1 :: '(' :: w :: _ =>
    if pyDigit d1 && pyDigit d2 && pyDigit d3 && pyDigit d4 && pyWS w then
      some (yearVal d1 d2 d3 d4)
    else none
  | _ => none

/-- re.sub(r'\s+\((\d{4})\)\s*$', '', text); as for the trailing-year
pattern there is at most one match and it extends to the end. -/
def subTrailParenYear (l : List Char) : List Char :=
  match findTrailParenYear l with
  | some _ => dropTrailWS ((dropTrailWS l).take ((dropTrailWS l).length - 6))
  | none => l

/-- Search for ^(\d{4})\s+: four digits at the very beginning followed by
whitespace (a fifth digit would make the anchored match fail). -/
def findLeadYear (l : List Char) : Option Nat :=
  match l with
  | d1 :: d2 :: d3 :: d4 :: w :: _ =>
    if pyDigit d1 && pyDigit d2 && pyDigit d3 && pyDigit d4 && pyWS w then
      some (yearVal d1 d2 d3 d4)
    else none
  | _ => none

/-- re.sub(r'^(\d{4})\s+', '', text): the anchored pattern matches at most
once; the match removes the digits and the whole leading whitespace run. -/
def subLeadYear (l : List Char) : List Char :=
  match findLeadYear l with
  | some _ => (l.drop 4).dropWhile pyWS
  | none => l

/-- The year-extraction loop of _extract_title_and_year: the five patterns
are tried in order, the first pattern with a match supplies the year, every
occurrence of that pattern is removed and the result stripped, and the loop
breaks. -/
def applyYearPatterns (l : List Char) : List Char × Option Nat :=
  match findParenYear l with
  | some y => (pyStripL (subParenYear l), some y)
  | none =>
  match findBrackYear l with
  | some y => (pyStripL (subBrackYear l), some y)
  | none =>
  match findTrailYear l with
  | some y => (pyStripL (subTrailYear l), some y)
  | none =>
  match findTrailParenYear l with
  | some y => (pyStripL (subTrailParenYear l), some y)
  | none =>
  match findLeadYear l with
  | some y => (pyStripL (subLeadYear l), some y)
  | none => (l, none)

/-- The value the source calls cleaned just before its final length test:
text.strip(), URLs removed, whitespace collapsed, the year pattern applied,
then cleaned[:100].strip(). -/
def cleanedCandidate (s : String) : List Char :=
  pyStripL (((applyYearPatterns (collapseWS (subHttp (pyStripL s.data)))).1).take 100)

/-- The year found by the pattern loop for input s (None when no pattern
matched). -/
def yearCandidate (s : String) : Option Nat :=
  (applyYearPatterns (collapseWS (subHttp (pyStripL s.data)))).2

/-- file_detector._extract_title_and_year: extract title and year from text.
Returns ("", None) for empty input and whenever the cleaned, truncated title
has length at most 2. -/
def _extract_title_and_year (s : String) : String × Option Nat :=
  if s = "" then ("", none)
  else
    let cleaned := cleanedCandidate s
    if decide (cleaned ≠ []) && decide (cleaned.length > 2) then
      (String.mk cleaned, yearCandidate s)
    else ("", none)

/-! ## Season and series extraction, file_detector.extract_season_series_info

The five SEASON_PATTERNS are scanned with re.search (leftmost match) one
pattern at a time, most specific first.  Each pattern is compiled to a
matcher that decides whether the pattern matches a prefix of the suffix
starting at the current position. -/

/-- The separator class [\.\s\-_] of the series patterns. -/
def isSep (c : Char) : Bool :=
  pyWS c || c == '.' || c == '-' || c == '_'

/-- The class [\s\.] used inside the Season/Episode patterns. -/
def isWSDot (c : Char) : Bool :=
  pyWS c || c == '.'

/-- The class [Ss] (the patterns also carry re.IGNORECASE). -/
def isSChar (c : Char) : Bool :=
  c == 'S' || c == 's'

/-- The class [Ee]. -/
def isEChar (c : Char) : Bool :=
  c == 'E' || c == 'e'

/-- Greedy \d{1,2}: one or two digits, two when available.  (No further
backtracking is needed by any caller: whenever the two-digit reading makes
the following literal fail, the one-digit reading leaves a digit in front of
that literal, which fails as well.) -/
def grab2 : List Char → Option (Nat × List Char)
  | c1 :: c2 :: rest =>
    if pyDigit c1 then
      if pyDigit c2 then some (10 * digitVal c1 + digitVal c2, rest)
      else some (digitVal c1, c2 :: rest)
    else none
  | [c1] => if pyDigit c1 then some (digitVal c1, []) else none
  | [] => none

/-- Case-insensitive literal match; the literal is stored lower-case.
Returns the rest of the text after the literal. -/
def matchLitCI : List Char → List Char → Option (List Char)
  | [], l => some l
  | p :: ps, c :: cs => if pyToLower c == p then matchLitCI ps cs else none
  | _ :: _, [] => none

/-- The optional separator [\s\.]? : greedily consume one separator and run
the continuation, falling back to not consuming it. -/
def optSep (k : List Char → Option α) (l : List Char) : Option α :=
  match l with
  | c :: cs =>
    if isWSDot c then
      match k cs with
      | some a => some a
      | none => k (c :: cs)
    else k l
  | [] => k []

/-- Matcher for [Ss](\d{1,2})[Ee](\d{1,2}) at the current position. -/
def mSE : List Char → Option (Nat × Nat)
  | c :: cs =>
    if isSChar c then
      match grab2 cs with
      | some (sn, e :: r2) =>
        if isEChar e then (grab2 r2).map (fun p => (sn, p.1)) else none
      | _ => none
    else none
  | [] => none

/-- Matcher for (\d{1,2})[Xx](\d{1,2}) at the current position. -/
def mX (l : List Char) : Option (Nat × Nat) :=
  match grab2 l with
  | some (sn, x :: r2) =>
    if x == 'X' || x == 'x' then (grab2 r2).map (fun p => (sn, p.1)) else none
  | _ => none

/-- Matcher for [Ss]eason[\s\.]?(\d{1,2})[\s\.]?[Ee]pisode[\s\.]?(\d{1,2}). -/
def mSeasonEpisode : List Char → Option (Nat × Nat)
  | c :: cs =>
    if isSChar c then
      match matchLitCI ['e','a','s','o','n'] cs with
      | some r1 =>
        optSep (fun r2 =>
          match grab2 r2 with
          | some (sn, r3) =>
            optSep (fun r4 =>
              match r4 with
              | e :: r5 =>
                if isEChar e then
                  match matchLitCI ['p','i','s','o','d','e'] r5 with
                  | some r6 => optSep (fun r7 => (grab2 r7).map (fun p => (sn, p.1))) r6
                  | none => none
                else none
              | [] => none) r3
          | none => none) r1
      | none => none
    else none
  | [] => none

/-- Matcher for [Ss](\d{1,2}) alone. -/
def mS : List Char → Option Nat
  | c :: cs => if isSChar c then (grab2 cs).map (fun p => p.1) else none
  | [] => none

/-- Matcher for [Ss]eason[\s\.]?(\d{1,2}). -/
def mSeason : List Char → Option Nat
  | c :: cs =>
    if isSChar c then
      match matchLitCI ['e','a','s','o','n'] cs with
      | some r1 => optSep (fun r2 => (grab2 r2).map (fun p => p.1)) r1
      | none => none
    else none
  | [] => none

/-- re.search: try the matcher at every position, leftmost first, returning
the prefix before the match together with the matcher value. -/
def scanFind (m : List Char → Option α) : List Char → Option (List Char × α)
  | [] => none
  | c :: cs =>
    match m (c :: cs) with
    | some a => some ([], a)
    | none => (scanFind m cs).map (fun p => (c :: p.1, p.2))

/-- Literal alternation lists, stored lower-case. -/
def litsOf (ss : List String) : List (List Char) :=
  ss.map String.data

/-- Try an ordered list of literal alternatives at the current position. -/
def tryLits (lits : List (List Char)) (l : List Char) : Option (List Char) :=
  match lits with
  | [] => none
  | lit :: more =>
    match matchLitCI lit l with
    | some r => some r
    | none => tryLits more l

/-- re.sub of a pattern [\.\s\-_]*(?:lit1|lit2|...) with '': at each
position the greedy separator run is consumed and the alternatives tried in
order (none of the literals starts with a separator, so a shorter run can
never help); scanning resumes after each removed match.  Fuel is the length
of the text plus one; every step consumes at least one character. -/
def subSepLitsAux (lits : List (List Char)) : Nat → List Char → List Char
  | 0, l => l
  | _ + 1, [] => []
  | fuel + 1, c :: cs =>
    match tryLits lits ((c :: cs).dropWhile isSep) with
    | some r => subSepLitsAux lits fuel r
    | none => c :: subSepLitsAux lits fuel cs

def subSepLits (lits : List (List Char)) (l : List Char) : List Char :=
  subSepLitsAux lits (l.length + 1) l

/-- re.sub(r'[\.\s\-_]*$', '', text): drop the trailing separator run. -/
def dropTrailSeps (l : List Char) : List Char :=
  (l.reverse.dropWhile isSep).reverse

/-- re.sub(r'[._\-]', ' ', text): dots, underscores and hyphens become
spaces. -/
def sepToSpace (l : List Char) : List Char :=
  l.map (fun c => if c == '.' || c == '_' || c == '-' then ' ' else c)

/-- file_detector._extract_series_name: the text before the matched season
pattern (re.sub(pattern + '.*', '', filename) keeps exactly the characters
before the leftmost match), cleaned by the quality-pattern substitutions,
separator replacement, whitespace collapse and strip. -/
def _extract_series_name (pre : List Char) : String :=
  let n1 := subSepLits (litsOf ["1080p", "720p", "480p", "2160p", "4k"]) pre
  let n2 := subSepLits (litsOf ["webrip", "webdl", "bluray", "hdtv", "dvdrip"]) n1
  let n3 := subSepLits (litsOf ["x264", "x265", "hevc", "avc"]) n2
  let n4 := subSepLits (litsOf ["youthtrendx", "rarbg", "yts", "amzn"]) n3
  let n5 := dropTrailSeps n4
  String.mk (pyStripL (collapseWS (sepToSpace n5)))

/-- Result dictionary of extract_season_series_info. -/
inductive SeriesInfo where
  | notSeries : SeriesInfo
  | series (season : Nat) (episode : Option Nat) (series_name : String) : SeriesInfo
deriving DecidableEq, Repr

/-- file_detector.extract_season_series_info: the five season patterns are
tried in order (S01E01, 1x01, Season 1 Episode 1, S01, Season 1); the first
pattern with a match fixes season, episode (None for the one-group
patterns) and the series name derived from the text before the match. -/
def extract_season_series_info (filename : String) : SeriesInfo :=
  match scanFind mSE filename.data with
  | some (pre, se) => .series se.1 (some se.2) (_extract_series_name pre)
  | none =>
  match scanFind mX filename.data with
  | some (pre, se) => .series se.1 (some se.2) (_extract_series_name pre)
  | none =>
  match scanFind mSeasonEpisode filename.data with
  | some (pre, se) => .series se.1 (some se.2) (_extract_series_name pre)
  | none =>
  match scanFind mS filename.data with
  | some (pre, sn) => .series sn none (_extract_series_name pre)
  | none =>
  match scanFind mSeason filename.data with
  | some (pre, sn) => .series sn none (_extract_series_name pre)
  | none => .notSeries

/-! ## Filename extraction, file_detector._extract_title_and_year_from_filename

The filename path runs many re.sub passes whose patterns are alternations
of literal tokens guarded by word boundaries.  They are compiled through a
small shared machinery: a pattern element is an exact (case-insensitive)
character or the wildcard '.', an alternative is a literal or \d+ followed
by a literal, and a scanning substitution threads the previous original
character so that the \b conditions are evaluated against the original
text, exactly as re.sub does. -/

/-- One element of a compiled literal: an exact character (compared
case-insensitively, stored lower-case) or the regex wildcard '.' which
matches anything but a newline. -/
inductive Pat where
  | ch (c : Char)
  | any
deriving DecidableEq, Repr

def matchPat (p : Pat) (c : Char) : Bool :=
  match p with
  | .ch d => pyToLower c == d
  | .any => !(c == '\n')

/-- Match a compiled literal, returning the last consumed character and the
rest of the text. -/
def matchPatsAux (last : Char) : List Pat → List Char → Option (Char × List Char)
  | [], l => some (last, l)
  | p :: ps, c :: cs => if matchPat p c then matchPatsAux c ps cs else none
  | _ :: _, [] => none

def matchPats (ps : List Pat) (l : List Char) : Option (Char × List Char) :=
  match ps, l with
  | p :: tl, c :: cs => if matchPat p c then matchPatsAux c tl cs else none
  | _, _ => none

/-- An alternative of one of the token alternations: a plain literal, or
\d+ followed by a literal (as in \d+mb). -/
inductive AltSpec where
  | lit (ps : List Pat)
  | digitsLit (ps : List Pat)
deriving Repr

def matchAlt : AltSpec → List Char → Option (Char × List Char)
  | .lit ps, l => matchPats ps l
  | .digitsLit ps, l =>
    match l with
    | c :: cs =>
      if pyDigit c then matchPats ps ((c :: cs).dropWhile pyDigit) else none
    | [] => none

/-- A word boundary before the match: every alternative starts with a word
character, so \b holds iff the previous character is absent or not a word
character. -/
def boundOk : Option Char → Bool
  | none => true
  | some c => !(pyWord c)

/-- A word boundary after the match: every alternative ends with a word
character, so \b holds iff the next character is absent or not a word
character. -/
def boundaryAfter : List Char → Bool
  | [] => true
  | c :: _ => !(pyWord c)

/-- Try the alternatives of a \b(?:a1|a2|...)\b pattern in order at the
current position; an alternative that matches but is not followed by a word
boundary is discarded and the next one tried, as the regex engine does. -/
def tryAlts (alts : List AltSpec) (l : List Char) : Option (Char × List Char) :=
  match alts with
  | [] => none
  | a :: more =>
    match matchAlt a l with
    | some (lc, rest) => if boundaryAfter rest then some (lc, rest) else tryAlts more l
    | none => tryAlts more l

/-- Matcher of a full \b(?:...)\b pattern. -/
def mBoundAlts (alts : List AltSpec) (prev : Option Char) (l : List Char) : Option (Char × List Char) :=
  if boundOk prev then tryAlts alts l else none

/-- re.sub of a matcher with a fixed replacement: scan left to right,
replace every match and resume after it, remembering the last original
character for the boundary conditions of later matches.  Every matcher used
consumes at least one character, so length-plus-one fuel is enough. -/
def subScanAux (m : Option Char → List Char → Option (Char × List Char)) (repl : List Char) :
    Nat → Option Char → List Char → List Char
  | 0, _, l => l
  | _ + 1, _, [] => []
  | fuel + 1, prev, c :: cs =>
    match m prev (c :: cs) with
    | some (lc, rest) => repl ++ subScanAux m repl fuel (some lc) rest
    | none => c :: subScanAux m repl fuel (some c) cs

def subScan (m : Option Char → List Char → Option (Char × List Char)) (repl : List Char)
    (l : List Char) : List Char :=
  subScanAux m repl (l.length + 1) none l

/-- re.search of a matcher that needs the previous character. -/
def findWithPrev (m : Option Char → List Char → Option α) : Option Char → List Char → Option α
  | _, [] => none
  | prev, c :: cs =>
    match m prev (c :: cs) with
    | some a => some a
    | none => findWithPrev m (some c) cs

/-- A plain literal alternative (any '.' in it is an escaped literal dot). -/
def litP (s : String) : AltSpec :=
  .lit (s.data.map Pat.ch)

/-- A literal alternative whose unescaped '.' is the regex wildcard. -/
def litW (s : String) : AltSpec :=
  .lit (s.data.map (fun c => if c = '.' then Pat.any else Pat.ch c))

/-- Matcher for \b\d{3,4}p\b: a word boundary, a run of exactly three or
four digits (a longer run cannot match: the quantifier would have to stop
on a digit, which is not p, and later starts fail the boundary), then p and
a boundary. -/
def mRes (prev : Option Char) (l : List Char) : Option (Char × List Char) :=
  if boundOk prev then
    match l with
    | c :: _ =>
      if pyDigit c then
        let run := l.takeWhile pyDigit
        if run.length == 3 || run.length == 4 then
          match l.drop run.length with
          | p :: rest =>
            if (p == 'p' || p == 'P') && boundaryAfter rest then some (p, rest) else none
          | [] => none
        else none
      else none
    | [] => none
  else none

/-- Scan forward to a closing character; the lazy wildcard of \[.*?\] and
\(.*?\) cannot cross a newline. -/
def scanClose (close : Char) : List Char → Option (List Char)
  | [] => none
  | c :: cs => if c == close then some cs else if c == '\n' then none else scanClose close cs

/-- Matcher for \[.*?\]. -/
def mBracket (_prev : Option Char) (l : List Char) : Option (Char × List Char) :=
  match l with
  | '[' :: rest => (scanClose ']' rest).map (fun r => (']', r))
  | _ => none

/-- Matcher for \(.*?\). -/
def mParen (_prev : Option Char) (l : List Char) : Option (Char × List Char) :=
  match l with
  | '(' :: rest => (scanClose ')' rest).map (fun r => (')', r))
  | _ => none

/-- Shape test for (19|20) followed by two digits. -/
def yearShape (c1 c2 c3 c4 : Char) : Bool :=
  ((c1 == '1' && c2 == '9') || (c1 == '2' && c2 == '0')) && pyDigit c3 && pyDigit c4

/-- Matcher for \b(19|20)\d{2}\b used by the filename year removal. -/
def mBoundYear (prev : Option Char) (l : List Char) : Option (Char × List Char) :=
  if boundOk prev then
    match l with
    | c1 :: c2 :: c3 :: c4 :: rest =>
      if yearShape c1 c2 c3 c4 && boundaryAfter rest then some (c4, rest) else none
    | _ => none
  else none

/-- re.search(r'\b(19|20)\d{2}\b', text): value of the first match. -/
def findBoundYear (l : List Char) : Option Nat :=
  findWithPrev (fun prev suf =>
    match mBoundYear prev suf with
    | some _ =>
      match suf with
      | c1 :: c2 :: c3 :: c4 :: _ => some (yearVal c1 c2 c3 c4)
      | _ => none
    | none => none) none l

/-- The class [.\-\s] of the filename title pattern. -/
def isDotDashWS (c : Char) : Bool :=
  c == '.' || c == '-' || pyWS c

/-- The starred tail (?:[.\-\s][A-Za-z0-9]+)* of the filename title
pattern, consumed greedily. -/
def titleTail : Nat → List Char → List Char
  | 0, _ => []
  | _ + 1, [] => []
  | fuel + 1, c :: cs =>
    if isDotDashWS c && (match cs with | d :: _ => pyAlnum d | [] => false) then
      c :: (cs.takeWhile pyAlnum ++ titleTail fuel (cs.dropWhile pyAlnum))
    else []

/-- re.search(r'^([A-Za-z0-9]+(?:[.\-\s][A-Za-z0-9]+)*)', text): when the
text starts with an alphanumeric character the greedy group is taken as the
new cleaned value, otherwise the text is left unchanged (no match). -/
def titleHead (l : List Char) : List Char :=
  match l with
  | c :: _ =>
    if pyAlnum c then l.takeWhile pyAlnum ++ titleTail (l.length + 1) (l.dropWhile pyAlnum)
    else l
  | [] => l

/-- The patterns_to_remove list of _extract_title_and_year_from_filename,
one matcher per re.sub pass, in source order. -/
def removePassMatchers : List (Option Char → List Char → Option (Char × List Char)) :=
  [ mRes
  , mBoundAlts [litP "bluray"], mBoundAlts [litP "webrip"], mBoundAlts [litP "webdl"]
  , mBoundAlts [litP "hdrip"], mBoundAlts [litP "dvdrip"]
  , mBoundAlts [litP "x264"], mBoundAlts [litP "x265"], mBoundAlts [litP "hevc"]
  , mBoundAlts [litP "avc"]
  , mBracket, mParen
  , mBoundAlts [litP "ppv", litP "rip", litP "dvd", litP "scr", litP "brrip", litP "brip",
      litP "extended", litP "remastered", litP "unrated", litW "directors.cut"]
  , mBoundAlts [litP "ac3", litP "dts", litP "aac", litP "mp3", litP "dd5.1", litP "dts-hd"]
  , mBoundAlts [litP "h264", litP "h265", litP "av1"]
  , mBoundAlts [litP "rarbg", litP "yts", litP "amzn", litP "amazon", litP "web", litP "hdtv"]
  , mBoundAlts [litP "dubbed", litP "dual.audio", litP "subbed"]
  , mBoundAlts [litP "youthtrendx", litP "rarbg", litP "yts", litP "amzn", litP "amazon"] ]

def applyRemovePasses (l : List Char) : List Char :=
  removePassMatchers.foldl (fun acc m => subScan m [] acc) l

/-- re.sub(r'\.[^.]*$', '', filename): remove the last extension when a dot
is present. -/
def stripExt (l : List Char) : List Char :=
  match l.reverse.dropWhile (fun c => !(c == '.')) with
  | '.' :: rest => rest.reverse
  | _ => l

/-! ### file_detector._extract_tv_series_pattern -/

/-- First alternation of the TV patterns:
s\d{1,2}e\d{1,2} | season[\s\.]?\d{1,2}[\s\.]?episode[\s\.]?\d{1,2},
with re.IGNORECASE (the shapes coincide with the season matchers). -/
def altP1 (l : List Char) : Bool :=
  (mSE l).isSome || (mSeasonEpisode l).isSome

/-- Second alternation: s\d{1,2}(?!e\d).  The quantifier takes two digits
when it can; if the negative lookahead then fails, one digit is retried, and
its lookahead always succeeds because the following character is the second
digit. -/
def altP2 : List Char → Bool
  | s :: a :: rest =>
    isSChar s && pyDigit a &&
      (match rest with
       | b :: rest2 =>
         if pyDigit b then true
         else !(isEChar b && (match rest2 with | d :: _ => pyDigit d | [] => false))
       | [] => true)
  | _ => false

/-- Third alternation: season[\s\.]?\d{1,2}. -/
def altP3 (l : List Char) : Bool :=
  (mSeason l).isSome

/-- The lazy prefix of ^(.+?)[\.\s\-_]*(?:alt): try split points from the
shortest group on; at each split the greedy separator run is consumed (the
alternatives start with non-separators) and the alternation tested.  The
group cannot contain a newline. -/
def lazyGo (test : List Char → Bool) : List Char → List Char → Option (List Char)
  | accRev, rest =>
    if test (rest.dropWhile isSep) then some accRev.reverse
    else
      match rest with
      | [] => none
      | c :: cs => if c == '\n' then none else lazyGo test (c :: accRev) cs

def lazyFind (test : List Char → Bool) : List Char → Option (List Char)
  | [] => none
  | c :: cs => if c == '\n' then none else lazyGo test [c] cs

/-- re.sub(r'\s*(?:1080p|720p|webrip|bluray|youthtrendx).*$', '', name):
truncate at the leftmost position where an optional whitespace run is
followed by one of the tokens; everything from there to the end is
removed. -/
def truncTrailQuality (l : List Char) : List Char :=
  match scanFind (fun suf =>
      if (tryLits (litsOf ["1080p", "720p", "webrip", "bluray", "youthtrendx"])
            (suf.dropWhile pyWS)).isSome
      then some () else none) l with
  | some (pre, _) => pre
  | none => l

/-- The per-pattern cleanup of _extract_tv_series_pattern: strip the group,
replace separators by spaces, collapse whitespace, strip, cut trailing
quality tokens, strip. -/
def tvSeriesClean (g : List Char) : List Char :=
  pyStripL (truncTrailQuality (pyStripL (collapseWS (sepToSpace (pyStripL g)))))

/-- file_detector._extract_tv_series_pattern: the three TV patterns are
tried in order; a pattern whose cleaned series name is empty falls through
to the next pattern, and the empty string signals no match. -/
def _extract_tv_series_pattern (l : List Char) : List Char :=
  let try1 :=
    match lazyFind altP1 l with
    | some g => tvSeriesClean g
    | none => []
  if try1 ≠ [] then try1
  else
    let try2 :=
      match lazyFind altP2 l with
      | some g => tvSeriesClean g
      | none => []
    if try2 ≠ [] then try2
    else
      match lazyFind altP3 l with
      | some g => tvSeriesClean g
      | none => []

/-- file_detector._extract_title_and_year_from_filename. -/
def _extract_title_and_year_from_filename (filename : String) : String × Option Nat :=
  let name0 := stripExt filename.data
  let sm := _extract_tv_series_pattern name0
  if sm ≠ [] then _extract_title_and_year (String.mk sm)
  else
    let year := findBoundYear name0
    let name1 :=
      match year with
      | some _ => subScan mBoundYear [] name0
      | none => name0
    let cleaned0 := titleHead name1
    let cleaned1 := applyRemovePasses cleaned0
    let cleaned2 := pyStripL (collapseWS (sepToSpace cleaned1))
    if cleaned2 ≠ [] then (String.mk cleaned2, year) else ("", none)

/-! ## Title normalization for deduplication,
channel_handler._clean_title_for_comparison

Applies TITLE_CLEANING_PATTERNS, QUALITY_PATTERNS and
COMMON_INDICATORS_PATTERN from config.py in order, then collapses
whitespace, strips and lower-cases. -/

/-- Matcher for \s*(19|20)\d{2}\s* (second TITLE_CLEANING_PATTERNS entry,
replaced by a single space): an optional whitespace run, a year-shaped
four-digit number, an optional trailing whitespace run.  A shorter leading
run can never help, since the quantifier would then stop on a whitespace
character where a digit is required. -/
def mLooseYear (_prev : Option Char) (l : List Char) : Option (Char × List Char) :=
  match l.dropWhile pyWS with
  | c1 :: c2 :: c3 :: c4 :: rest =>
    if yearShape c1 c2 c3 c4 then
      some (((rest.takeWhile pyWS).getLast?).getD c4, rest.dropWhile pyWS)
    else none
  | _ => none

/-- COMMON_FILE_INDICATORS from config.py, in list order; the pattern
\b(tok1|tok2|...)\b is assembled from the raw tokens, so their dots are
regex wildcards. -/
def commonIndicatorAlts : List AltSpec :=
  (["480p", "720p", "1080p", "2160p", "4k", "hd", "fhd", "uhd",
    "bluray", "webdl", "webrip", "dvdrip", "brrip", "hdtv",
    "remux", "bdrip", "web", "bd", "dvd", "tvrip",
    "x264", "x265", "h264", "h265", "hevc", "avc", "av1",
    "ac3", "aac", "dd5.1", "dts", "dts-hd", "truehd", "mp3",
    "flac", "ogg", "opus",
    "2ch", "5.1", "7.1", "stereo", "mono", "surround",
    "yts", "rarbg", "amzn", "amazon", "web", "hdtv", "pdtv",
    "dsnp", "hulu", "nf", "netflix", "atvp", "dsny", "hmax",
    "450mb", "pahe", "in", "hdr", "heydl", "mkv", "mp4", "avi",
    "m4v", "mov", "wmv", "flv", "webm",
    "repack", "proper", "directors.cut", "extended", "unrated",
    "theatrical", "final", "limited", "complete", "season",
    "episode", "s01", "s02", "s03", "e01", "e02", "e03",
    "dual.audio", "dubbed", "subbed", "subtitles"]).map litW

/-- channel_handler._clean_title_for_comparison. -/
def _clean_title_for_comparison (title : String) : String :=
  let l1 := title.data.map (fun c => if c == '.' || c == '_' then ' ' else c)
  let l2 := subScan mLooseYear [' '] l1
  let l3 := subScan (mBoundAlts ([ "480p", "720p", "1080p", "2160p", "4k", "hd", "fhd",
      "uhd", "bluray", "webdl", "webrip", "dvdrip", "brrip"].map litP)) [] l2
  let l4 := subScan (mBoundAlts (["x264", "x265", "h264", "h265", "hevc", "avc"].map litP)) [] l3
  let l5 := subScan (mBoundAlts [litP "ac3", litP "aac", litP "dd5.1", litP "dts"]) [] l4
  let l6 := subScan (mBoundAlts [AltSpec.digitsLit ((String.data "mb").map Pat.ch),
      AltSpec.digitsLit ((String.data "gb").map Pat.ch),
      litP "pahe", litP "in", litP "hdr", litP "2ch", litP "heydl", litP "yts",
      litP "rarbg", litP "amzn"]) [] l5
  let l7 := subScan mBracket [] l6
  let l8 := subScan mParen [] l7
  let l9 := subScan (mBoundAlts commonIndicatorAlts) [] l8
  String.mk (pyLowerL (pyStripL (collapseWS l9)))

/-! ## Deduplication ledger,
channel_handler._should_process_movie / _should_process_series and
movie_data.MovieDataManager -/

/-- CACHE_CONFIG from config.py. -/
structure CacheConfig where
  movie_cooldown : Nat
  series_cooldown : Nat
  max_cache_entries : Nat
  cleanup_batch_size : Nat
deriving DecidableEq, Repr

def CACHE_CONFIG : CacheConfig :=
  { movie_cooldown := 3600, series_cooldown := 3600,
    max_cache_entries := 1000, cleanup_batch_size := 100 }

/-- Lookup in the recently_processed dict (keys are unique). -/
def lookupKey (k : String) : List (String × Nat) → Option Nat
  | [] => none
  | (k0, v) :: rest => if k0 = k then some v else lookupKey k rest

/-- Python dict assignment d[k] = v: an existing key keeps its position, a
new key is appended in iteration order. -/
def insertReplace (k : String) (v : Nat) : List (String × Nat) → List (String × Nat)
  | [] => [(k, v)]
  | (k0, v0) :: rest => if k0 = k then (k, v) :: rest else (k0, v0) :: insertReplace k v rest

/-- The cleanup branch of _should_process_movie:
sorted(keys, key=timestamp)[:batch] is deleted from the dict.  Python
sorted is a stable mergesort and dict iteration order is insertion order,
both matched by List.mergeSort on the association list. -/
def evictOldest (l : List (String × Nat)) : List (String × Nat) :=
  let oldest_keys :=
    ((l.mergeSort (fun a b => decide (a.2 ≤ b.2))).take CACHE_CONFIG.cleanup_batch_size).map Prod.fst
  l.filter (fun e => !(oldest_keys.contains e.1))

/-- The module-level mutable caches of channel_handler.py. -/
structure CacheState where
  processed_series_cache : List String
  recently_processed : List (String × Nat)
deriving DecidableEq, Repr

/-- channel_handler._should_process_movie.  The enclosing try/except
returns True on an internal error; the body below is total, so the handler
is unreachable in the model. -/
def _should_process_movie (movie_title : String) (current_time : Nat) (st : CacheState) :
    Bool × CacheState :=
  let movie_key := "movie_" ++ _clean_title_for_comparison movie_title
  let blocked :=
    match lookupKey movie_key st.recently_processed with
    | some last => decide (current_time - last < CACHE_CONFIG.movie_cooldown)
    | none => false
  if blocked then (false, st)
  else
    let rp := insertReplace movie_key current_time st.recently_processed
    let rp2 := if decide (rp.length > CACHE_CONFIG.max_cache_entries) then evictOldest rp else rp
    (true, { st with recently_processed := rp2 })

/-- The processed_series MongoDB collection of movie_data.py: connected
with its rows (series_name, season, timestamp), or disconnected (the
collection attribute is None), or failing (every operation raises). -/
inductive SeriesStore where
  | connected (db : List (String × Nat × Nat))
  | disconnected
  | failing
deriving DecidableEq, Repr

/-- MovieDataManager.is_series_processed: find_one on the normalized name
and the season; a None collection returns False, an exception is caught and
returns False. -/
def is_series_processed (store : SeriesStore) (series_name : String) (season : Nat) : Bool :=
  match store with
  | .connected db => db.any (fun r => r.1 == pyNormalize series_name && r.2.1 == season)
  | .disconnected => false
  | .failing => false

/-- MovieDataManager.mark_series_processed: insert_one of the normalized
name, the season and the timestamp; a None collection does nothing, an
exception is caught and logged. -/
def mark_series_processed (store : SeriesStore) (series_name : String) (season : Nat) (t : Nat) :
    SeriesStore :=
  match store with
  | .connected db => .connected ((pyNormalize series_name, season, t) :: db)
  | .disconnected => .disconnected
  | .failing => .failing

/-- channel_handler._should_process_series.  As for the movie check the
enclosing try/except returns True; every operation that can raise in the
source (the store access) is caught one level further down, inside
is_series_processed. -/
def _should_process_series (series_name : String) (season : Nat) (current_time : Nat)
    (store : SeriesStore) (st : CacheState) : Bool × CacheState :=
  let name := pyNormalize series_name
  if name = "" then (true, st)
  else
    let series_key := name ++ "_s" ++ toString season
    if is_series_processed store name season then (false, st)
    else if st.processed_series_cache.contains series_key then (false, st)
    else
      let blocked :=
        match lookupKey series_key st.recently_processed with
        | some last => decide (current_time - last < CACHE_CONFIG.series_cooldown)
        | none => false
      if blocked then (false, st)
      else
        (true,
         { processed_series_cache := series_key :: st.processed_series_cache,
           recently_processed := insertReplace series_key current_time st.recently_processed })

/-! ## Search orchestration, movie_searcher.MovieSearcher.search_media -/

/-- The normalized record shape produced by the adapters and by the TMDB
conversion inside search_media.  The numeric rating is carried through
verbatim and never computed on; it is modelled as a rational. -/
structure MediaRec where
  id : String
  title : String
  release_year : String
  poster_url : String
  media_type : String
  source : String
  vote_average : Rat
  vote_count : Nat
deriving DecidableEq, Repr

/-- A raw TMDB result dictionary as read by search_media through .get
calls: every field may be absent. -/
structure TmdbRaw where
  id : Nat
  title : Option String
  name : Option String
  release_year : Option String
  poster_path : Option String
  vote_average : Option Rat
  vote_count : Option Nat
deriving DecidableEq, Repr

/-- The TMDB-to-standard conversion of the tv branch of search_media. -/
def convTv (r : TmdbRaw) : MediaRec :=
  { id := toString r.id
  , title := r.name.getD ""
  , release_year := r.release_year.getD "Unknown"
  , poster_url :=
      match r.poster_path with
      | some p => if p ≠ "" then "https://image.tmdb.org/t/p/w500" ++ p else ""
      | none => ""
  , media_type := "tv"
  , source := "tmdb"
  , vote_average := r.vote_average.getD 0
  , vote_count := r.vote_count.getD 0 }

/-- The TMDB-to-standard conversion of the movie branch of search_media. -/
def convMovie (r : TmdbRaw) : MediaRec :=
  { id := toString r.id
  , title := r.title.getD ""
  , release_year := r.release_year.getD "Unknown"
  , poster_url :=
      match r.poster_path with
      | some p => if p ≠ "" then "https://image.tmdb.org/t/p/w500" ++ p else ""
      | none => ""
  , media_type := "movie"
  , source := "tmdb"
  , vote_average := r.vote_average.getD 0
  , vote_count := r.vote_count.getD 0 }

/-- The deduplication key of _remove_duplicates:
title lower-cased, an underscore, and the release year (every record
carries a release_year, so the .get default never fires). -/
def dedupKey (r : MediaRec) : String :=
  String.mk (pyLowerL r.title.data) ++ "_" ++ r.release_year

/-- MovieSearcher._remove_duplicates with its seen set. -/
def removeDuplicatesAux (seen : List String) : List MediaRec → List MediaRec
  | [] => []
  | r :: rs =>
    let key := dedupKey r
    if seen.contains key then removeDuplicatesAux seen rs
    else r :: removeDuplicatesAux (key :: seen) rs

def _remove_duplicates (results : List MediaRec) : List MediaRec :=
  removeDuplicatesAux [] results

/-- MovieSearcher.search_media.  The adapters are abstracted as the result
sequences they return for the fixed query and year at a requested limit;
imdbOk and tmdbOk state that the corresponding client initialized.  IMDB
results land first; TMDB results are converted and appended only when the
IMDB results fall short of the limit; the combined list is deduplicated
(first occurrence wins) and truncated to the limit. -/
def search_media (imdbOk tmdbOk : Bool)
    (imdb_tv imdb_movie : Nat → List MediaRec)
    (tmdb_tv tmdb_movie : Nat → List TmdbRaw)
    (media_type : String) (limit : Nat) : List MediaRec :=
  let r1 := if imdbOk && (media_type == "tv" || media_type == "auto") then imdb_tv limit else []
  let r2 := r1 ++ (if imdbOk && (media_type == "movie" || media_type == "auto") then imdb_movie limit else [])
  let all :=
    if decide (r2.length < limit) && tmdbOk then
      let r3 := r2 ++ (if media_type == "tv" || media_type == "auto"
        then (tmdb_tv (limit - r2.length)).map convTv else [])
      r3 ++ (if media_type == "movie" || media_type == "auto"
        then (tmdb_movie (limit - r3.length)).map convMovie else [])
    else r2
  (_remove_duplicates all).take limit

/-! ## Scenario used to exercise the series path of the ledger -/

/-- Distinct series names of growing length. -/
def mkSeriesName (i : Nat) : String :=
  String.mk (List.replicate i 'a')

/-- Run n series dedup checks for distinct fresh series (season 1, time 0,
reachable empty durable store), accumulating the cache state. -/
def iterSeriesChecks : Nat → CacheState → CacheState
  | 0, st => st
  | n + 1, st =>
    iterSeriesChecks n (_should_process_series (mkSeriesName (n + 1)) 1 0 (.connected []) st).2

/-! # Helper lemmas -/

theorem dropWhile_head_not (p : α → Bool) :
    ∀ (l : List α) {c : α} {cs : List α}, l.dropWhile p = c :: cs → p c = false := by
  intro l
  induction l with
  | nil => intro c cs h; simp at h
  | cons a as ih =>
    intro c cs h
    cases hpa : p a with
    | true =>
      rw [List.dropWhile_cons, hpa] at h
      exact ih (by simpa using h)
    | false =>
      rw [List.dropWhile_cons, hpa] at h
      simp only [Bool.false_eq_true, if_false] at h
      obtain ⟨h1, _⟩ := List.cons.inj h
      rw [← h1]; exact hpa

theorem dropWhile_idem (p : α → Bool) (l : List α) :
    (l.dropWhile p).dropWhile p = l.dropWhile p := by
  cases h : l.dropWhile p with
  | nil => rfl
  | cons c cs =>
    have hc := dropWhile_head_not p l h
    simp [List.dropWhile_cons, hc]

theorem pyStripL_idem (l : List Char) : pyStripL (pyStripL l) = pyStripL l := by
  show ((((((l.dropWhile pyWS).reverse.dropWhile pyWS).reverse).dropWhile pyWS).reverse.dropWhile pyWS)).reverse
      = ((l.dropWhile pyWS).reverse.dropWhile pyWS).reverse
  have h1 : (((l.dropWhile pyWS).reverse.dropWhile pyWS).reverse).dropWhile pyWS
      = ((l.dropWhile pyWS).reverse.dropWhile pyWS).reverse := by
    cases hen : ((l.dropWhile pyWS).reverse.dropWhile pyWS).reverse with
    | nil => rfl
    | cons y ys =>
      obtain ⟨t, ht⟩ := List.dropWhile_suffix (l := (l.dropWhile pyWS).reverse) pyWS
      have hdrev : l.dropWhile pyWS
          = ((l.dropWhile pyWS).reverse.dropWhile pyWS).reverse ++ t.reverse := by
        have h2 := congrArg List.reverse ht
        simpa [List.reverse_append] using h2.symm
      have hd2 : l.dropWhile pyWS = y :: (ys ++ t.reverse) := by
        rw [hdrev, hen]; rfl
      have hy : pyWS y = false := dropWhile_head_not pyWS l hd2
      simp [List.dropWhile_cons, hy]
  rw [h1, List.reverse_reverse, dropWhile_idem]

/-- Every ASCII lower-casing either fixes the character or acts on one of
the 26 upper-case letters. -/
theorem pyToLower_spec (c : Char) :
    pyToLower c = c ∨ c ∈ ['A','B','C','D','E','F','G','H','I','J','K','L','M',
      'N','O','P','Q','R','S','T','U','V','W','X','Y','Z'] := by
  by_cases h : c ∈ ['A','B','C','D','E','F','G','H','I','J','K','L','M',
      'N','O','P','Q','R','S','T','U','V','W','X','Y','Z']
  · exact Or.inr h
  · left
    simp only [List.mem_cons, List.not_mem_nil, or_false, not_or] at h
    obtain ⟨h1,h2,h3,h4,h5,h6,h7,h8,h9,h10,h11,h12,h13,h14,h15,h16,h17,h18,h19,h20,
      h21,h22,h23,h24,h25,h26⟩ := h
    simp [pyToLower, h1,h2,h3,h4,h5,h6,h7,h8,h9,h10,h11,h12,h13,h14,h15,h16,h17,h18,
      h19,h20,h21,h22,h23,h24,h25,h26]

theorem pyToLower_idem (c : Char) : pyToLower (pyToLower c) = pyToLower c := by
  rcases pyToLower_spec c with h | h
  · rw [h]; exact h
  · simp only [List.mem_cons, List.not_mem_nil, or_false] at h
    rcases h with h|h|h|h|h|h|h|h|h|h|h|h|h|h|h|h|h|h|h|h|h|h|h|h|h|h <;> subst h <;> decide

theorem pyWS_pyToLower (c : Char) : pyWS (pyToLower c) = pyWS c := by
  rcases pyToLower_spec c with h | h
  · rw [h]
  · simp only [List.mem_cons, List.not_mem_nil, or_false] at h
    rcases h with h|h|h|h|h|h|h|h|h|h|h|h|h|h|h|h|h|h|h|h|h|h|h|h|h|h <;> subst h <;> decide

theorem pyStripL_map_pyToLower (l : List Char) :
    pyStripL (l.map pyToLower) = (pyStripL l).map pyToLower := by
  have hcomp : (pyWS ∘ pyToLower) = pyWS := funext pyWS_pyToLower
  unfold pyStripL
  rw [List.dropWhile_map, hcomp, ← List.map_reverse, List.dropWhile_map, hcomp,
    ← List.map_reverse]

theorem pyNormalize_idem (s : String) : pyNormalize (pyNormalize s) = pyNormalize s := by
  unfold pyNormalize pyLowerL
  congr 1
  rw [← pyStripL_map_pyToLower, List.map_map]
  have h2 : s.data.map (pyToLower ∘ pyToLower) = s.data.map pyToLower :=
    List.map_congr_left (fun a _ => by simpa [Function.comp] using pyToLower_idem a)
  rw [h2, pyStripL_idem]

/-! # Claim theorems -/

/-- C1 (amended): once a durable processed marker for (s, n) has been
recorded via mark_series_processed on a reachable store, every subsequent
series dedup check for s and n returns false and leaves the caches
untouched, at every later time — the durable block has no TTL — provided
the normalized series name is non-empty.  (The unamended claim fails for
names whose normalized form is empty: the check short-circuits to true
before consulting the store; see the counterexample.) -/
theorem C1_series_permanent_block (s : String) (n : Nat) (t0 t : Nat)
    (db : List (String × Nat × Nat)) (st : CacheState)
    (hname : pyNormalize s ≠ "") :
    _should_process_series s n t (mark_series_processed (.connected db) s n t0) st
      = (false, st) := by
  have hproc :
      is_series_processed (.connected ((pyNormalize s, n, t0) :: db)) (pyNormalize s) n
        = true := by
    unfold is_series_processed
    simp [pyNormalize_idem]
  unfold _should_process_series mark_series_processed
  simp [hname, hproc]

/-- C1 witness: the concrete scenario from the spec, with an arbitrarily
late second call. -/
theorem C1_witness :
    _should_process_series "Breaking Bad" 1 999999999
      (mark_series_processed (.connected []) "Breaking Bad" 1 0) ⟨[], []⟩
      = (false, (⟨[], []⟩ : CacheState)) :=
  C1_series_permanent_block "Breaking Bad" 1 0 999999999 [] ⟨[], []⟩ (by decide)

/-- C1 counterexample: for the empty series name the claim as stated fails.
mark_series_processed durably records the marker ("", 1), yet the
subsequent series dedup check returns true, not false, because
_should_process_series returns true for an empty normalized name before
consulting the store. -/
theorem C1_counterexample :
    mark_series_processed (.connected []) "" 1 0 = .connected [("", 1, 0)] ∧
    (_should_process_series "" 1 999999999 (.connected [("", 1, 0)]) ⟨[], []⟩).1 = true := by
  decide

theorem lookupKey_insertReplace_self (k : String) (v : Nat) (l : List (String × Nat)) :
    lookupKey k (insertReplace k v l) = some v := by
  induction l with
  | nil => simp [insertReplace, lookupKey]
  | cons e rest ih =>
    obtain ⟨k0, v0⟩ := e
    by_cases h : k0 = k
    · simp [insertReplace, h, lookupKey]
    · simp [insertReplace, h, lookupKey, ih]

theorem insertReplace_length_of_absent (k : String) (v : Nat) (l : List (String × Nat))
    (h : lookupKey k l = none) :
    (insertReplace k v l).length = l.length + 1 := by
  induction l with
  | nil => simp [insertReplace]
  | cons e rest ih =>
    obtain ⟨k0, v0⟩ := e
    by_cases hk : k0 = k
    · rw [lookupKey, if_pos hk] at h
      cases h
    · rw [lookupKey, if_neg hk] at h
      simp [insertReplace, hk, ih h]

/-- C2: for every movie title, the first dedup check (key absent from the
short-term cache, cache not at capacity) returns true and records the call
time under the title's key; a second check within the 3600-second cooldown
returns false and leaves the state unchanged; a check once the cooldown has
elapsed returns true again — the cooldown is the only gate on movies. -/
theorem C2_movie_cooldown (title : String) (t1 t2 t3 : Nat) (st : CacheState)
    (habsent : lookupKey ("movie_" ++ _clean_title_for_comparison title)
      st.recently_processed = none)
    (hsize : st.recently_processed.length < CACHE_CONFIG.max_cache_entries)
    (h12 : t2 < t1 + CACHE_CONFIG.movie_cooldown)
    (h13 : t1 + CACHE_CONFIG.movie_cooldown ≤ t3) :
    CACHE_CONFIG.movie_cooldown = 3600 ∧
    (_should_process_movie title t1 st).1 = true ∧
    (_should_process_movie title t1 st).2.recently_processed
      = insertReplace ("movie_" ++ _clean_title_for_comparison title) t1
          st.recently_processed ∧
    lookupKey ("movie_" ++ _clean_title_for_comparison title)
      (_should_process_movie title t1 st).2.recently_processed = some t1 ∧
    (_should_process_movie title t2 (_should_process_movie title t1 st).2).1 = false ∧
    (_should_process_movie title t2 (_should_process_movie title t1 st).2).2
      = (_should_process_movie title t1 st).2 ∧
    (_should_process_movie title t3 (_should_process_movie title t1 st).2).1 = true := by
  have hlen : (insertReplace ("movie_" ++ _clean_title_for_comparison title) t1
      st.recently_processed).length = st.recently_processed.length + 1 :=
    insertReplace_length_of_absent _ _ _ habsent
  have hsmall : ¬ (insertReplace ("movie_" ++ _clean_title_for_comparison title) t1
      st.recently_processed).length > CACHE_CONFIG.max_cache_entries := by
    rw [hlen]
    simp only [CACHE_CONFIG] at hsize ⊢
    omega
  have hcall1 : _should_process_movie title t1 st =
      (true, { st with recently_processed := (insertReplace
        ("movie_" ++ _clean_title_for_comparison title) t1 st.recently_processed) }) := by
    unfold _should_process_movie
    simp [habsent, hsmall]
  have hlook : lookupKey ("movie_" ++ _clean_title_for_comparison title)
      (_should_process_movie title t1 st).2.recently_processed = some t1 := by
    rw [hcall1]
    exact lookupKey_insertReplace_self _ _ _
  have hblock2 : t2 - t1 < CACHE_CONFIG.movie_cooldown := by
    simp only [CACHE_CONFIG] at h12 ⊢
    omega
  have hcall2 : _should_process_movie title t2 (_should_process_movie title t1 st).2
      = (false, (_should_process_movie title t1 st).2) := by
    rw [hcall1]
    unfold _should_process_movie
    simp [lookupKey_insertReplace_self, hblock2]
  have hfree3 : ¬ (t3 - t1 < CACHE_CONFIG.movie_cooldown) := by
    simp only [CACHE_CONFIG] at h13 ⊢
    omega
  have hcall3 : (_should_process_movie title t3 (_should_process_movie title t1 st).2).1
      = true := by
    rw [hcall1]
    unfold _should_process_movie
    simp [lookupKey_insertReplace_self, hfree3]
  exact ⟨rfl, by rw [hcall1], by rw [hcall1], hlook, by rw [hcall2], by rw [hcall2], hcall3⟩

/-- C2 witness: the spec scenario for the title Inception, from an empty
cache, at times 0, 1 and 3600. -/
theorem C2_witness :
    CACHE_CONFIG.movie_cooldown = 3600 ∧
    (_should_process_movie "Inception" 0 ⟨[], []⟩).1 = true ∧
    (_should_process_movie "Inception" 0 ⟨[], []⟩).2.recently_processed
      = insertReplace ("movie_" ++ _clean_title_for_comparison "Inception") 0 [] ∧
    lookupKey ("movie_" ++ _clean_title_for_comparison "Inception")
      (_should_process_movie "Inception" 0 ⟨[], []⟩).2.recently_processed = some 0 ∧
    (_should_process_movie "Inception" 1 (_should_process_movie "Inception" 0 ⟨[], []⟩).2).1
      = false ∧
    (_should_process_movie "Inception" 1 (_should_process_movie "Inception" 0 ⟨[], []⟩).2).2
      = (_should_process_movie "Inception" 0 ⟨[], []⟩).2 ∧
    (_should_process_movie "Inception" 3600 (_should_process_movie "Inception" 0 ⟨[], []⟩).2).1
      = true :=
  C2_movie_cooldown "Inception" 0 1 3600 ⟨[], []⟩ (by decide) (by decide) (by decide) (by decide)

/-- C3 (amended): an error raised by the durable store during a series
dedup check is caught inside is_series_processed and treated as "not
processed": with a failing store the check never propagates an error and
behaves exactly as with a reachable empty store, and it returns true
whenever the in-memory caches do not block the key.  (The unamended claim
— that the checks return true on every input on which an internal error is
raised — fails: the in-memory caches still apply after a store error and
can return false; see the counterexample.  _should_process_movie never
consults the store at all.) -/
theorem C3_fail_open :
    (∀ (s : String) (n t : Nat) (st : CacheState),
      _should_process_series s n t .failing st = _should_process_series s n t (.connected []) st) ∧
    (∀ (s : String) (n t : Nat) (st : CacheState),
      st.processed_series_cache.contains (pyNormalize s ++ "_s" ++ toString n) = false →
      lookupKey (pyNormalize s ++ "_s" ++ toString n) st.recently_processed = none →
      (_should_process_series s n t .failing st).1 = true) := by
  constructor
  · intro s n t st
    unfold _should_process_series is_series_processed
    simp
  · intro s n t st hcache hlook
    unfold _should_process_series is_series_processed
    by_cases hname : pyNormalize s = ""
    · simp [hname]
    · have hc2 : ¬ (pyNormalize s ++ "_s" ++ toString n ∈ st.processed_series_cache) := by
        simpa using hcache
      simp [hname, hc2, hlook]

/-- C3 witness: with the durable store failing and empty caches, the series
check for Breaking Bad season 1 returns true. -/
theorem C3_witness :
    (_should_process_series "Breaking Bad" 1 0 .failing ⟨[], []⟩).1 = true :=
  C3_fail_open.2 "Breaking Bad" 1 0 ⟨[], []⟩ (by decide) (by decide)

/-- C3 counterexample: the durable store is unreachable (every operation
raises, so an internal error is raised and caught during the check), yet
the series dedup check returns false, not true, because the session cache
blocks the key. -/
theorem C3_counterexample :
    is_series_processed .failing "Breaking Bad" 1 = false ∧
    _should_process_series "Breaking Bad" 1 5 .failing ⟨["breaking bad_s1"], []⟩
      = (false, (⟨["breaking bad_s1"], []⟩ : CacheState)) := by
  decide

theorem removeDuplicatesAux_sublist (seen : List String) (l : List MediaRec) :
    (removeDuplicatesAux seen l).Sublist l := by
  induction l generalizing seen with
  | nil => simp [removeDuplicatesAux]
  | cons r rs ih =>
    unfold removeDuplicatesAux
    by_cases h : seen.contains (dedupKey r)
    · simp only [h, if_pos]
      exact (ih seen).cons r
    · simp only [h]
      simp only [Bool.false_eq_true, if_false]
      exact (ih (dedupKey r :: seen)).cons₂ r

theorem contains_cons_self (a : String) (seen : List String) :
    (a :: seen).contains a = true := by
  simp [List.contains_cons]

theorem contains_cons_of (a x : String) (seen : List String) (h : seen.contains x = true) :
    (a :: seen).contains x = true := by
  simp only [List.contains_cons, Bool.or_eq_true]
  exact Or.inr h

theorem contains_cons_false (a x : String) (seen : List String)
    (h1 : x ≠ a) (h2 : seen.contains x = false) :
    (a :: seen).contains x = false := by
  simp only [List.contains_cons, Bool.or_eq_false_iff]
  exact ⟨by simpa using h1, h2⟩

theorem removeDuplicatesAux_filter_of_seen (l : List MediaRec) :
    ∀ (seen : List String) (k : String), seen.contains k = true →
    (removeDuplicatesAux seen l).filter (fun r => dedupKey r == k) = [] := by
  induction l with
  | nil => intro seen k _; simp [removeDuplicatesAux]
  | cons r rs ih =>
    intro seen k hk
    unfold removeDuplicatesAux
    by_cases h : seen.contains (dedupKey r) = true
    · simp only [h, if_pos]
      exact ih seen k hk
    · simp only [h, Bool.false_eq_true, if_false]
      have hne : (dedupKey r == k) = false := by
        by_cases he : dedupKey r = k
        · subst he; exact absurd hk h
        · simpa using he
      rw [List.filter_cons]
      simp only [hne, Bool.false_eq_true, if_false]
      exact ih (dedupKey r :: seen) k (contains_cons_of _ _ _ hk)

theorem removeDuplicatesAux_filter_of_fresh (l : List MediaRec) :
    ∀ (seen : List String) (k : String), seen.contains k = false →
    (removeDuplicatesAux seen l).filter (fun r => dedupKey r == k)
      = (l.filter (fun r => dedupKey r == k)).take 1 := by
  induction l with
  | nil => intro seen k _; simp [removeDuplicatesAux]
  | cons r rs ih =>
    intro seen k hk
    unfold removeDuplicatesAux
    by_cases he : dedupKey r = k
    · subst he
      have h : seen.contains (dedupKey r) = false := hk
      simp only [h, Bool.false_eq_true, if_false]
      rw [List.filter_cons, List.filter_cons]
      simp only [beq_self_eq_true, if_pos]
      rw [removeDuplicatesAux_filter_of_seen rs (dedupKey r :: seen) (dedupKey r)
        (contains_cons_self _ _)]
      simp
    · have hne : (dedupKey r == k) = false := by simpa using he
      by_cases h : seen.contains (dedupKey r) = true
      · simp only [h, if_pos]
        rw [ih seen k hk, List.filter_cons]
        simp [hne]
      · simp only [h, Bool.false_eq_true, if_false]
        rw [List.filter_cons]
        simp only [hne, Bool.false_eq_true, if_false]
        rw [ih (dedupKey r :: seen) k
          (contains_cons_false _ _ _ (fun hh => he hh.symm) hk), List.filter_cons]
        simp [hne]

theorem removeDuplicatesAux_keys (l : List MediaRec) :
    ∀ seen : List String, ((removeDuplicatesAux seen l).map dedupKey).Nodup ∧
      ∀ k ∈ (removeDuplicatesAux seen l).map dedupKey, seen.contains k = false := by
  induction l with
  | nil => intro seen; simp [removeDuplicatesAux]
  | cons r rs ih =>
    intro seen
    unfold removeDuplicatesAux
    by_cases h : seen.contains (dedupKey r) = true
    · simp only [h, if_pos]
      exact ih seen
    · simp only [h, Bool.false_eq_true, if_false]
      obtain ⟨hnd, hfresh⟩ := ih (dedupKey r :: seen)
      refine ⟨?_, ?_⟩
      · rw [List.map_cons, List.nodup_cons]
        refine ⟨fun hmem => ?_, hnd⟩
        have h2 := hfresh _ hmem
        rw [contains_cons_self] at h2
        cases h2
      · intro k hkmem
        rw [List.map_cons, List.mem_cons] at hkmem
        rcases hkmem with hkmem | hkmem
        · rw [hkmem]; simpa using h
        · have h2 := hfresh _ hkmem
          simp only [List.contains_cons, Bool.or_eq_false_iff] at h2
          exact h2.2

/-- C4: search_media merges primary (IMDB) results ahead of secondary
(TMDB) top-up results and deduplicates by lower-cased title plus release
year, keeping the first occurrence of each key: the deduplicated list is a
subsequence of the merged list (order preserved, primary first), its keys
are pairwise distinct, and for every key exactly the first merged record
with that key survives.  In particular, for primary result X(2020) and
secondary results X(2020), Y(2021), the output has exactly the two entries
X and Y, and the retained X record is the primary provider's. -/
theorem C4_merge_dedup :
    (∀ l : List MediaRec, (_remove_duplicates l).Sublist l) ∧
    (∀ l : List MediaRec, ((_remove_duplicates l).map dedupKey).Nodup) ∧
    (∀ (l : List MediaRec) (k : String),
      (_remove_duplicates l).filter (fun r => dedupKey r == k)
        = (l.filter (fun r => dedupKey r == k)).take 1) ∧
    search_media true true (fun _ => []) (fun _ => [⟨"tt100", "X", "2020", "", "movie", "imdb", 0, 0⟩])
        (fun _ => []) (fun _ => [⟨1, some "X", none, some "2020", none, none, none⟩,
          ⟨2, some "Y", none, some "2021", none, none, none⟩]) "movie" 10
      = [⟨"tt100", "X", "2020", "", "movie", "imdb", 0, 0⟩,
         ⟨"2", "Y", "2021", "", "movie", "tmdb", 0, 0⟩] := by
  refine ⟨fun l => removeDuplicatesAux_sublist [] l,
    fun l => (removeDuplicatesAux_keys l []).1,
    fun l k => removeDuplicatesAux_filter_of_fresh l [] k rfl, ?_⟩
  decide

theorem mem_insertReplace (k : String) (v : Nat) (l : List (String × Nat)) :
    ∀ e ∈ insertReplace k v l, e = (k, v) ∨ e ∈ l := by
  induction l with
  | nil =>
    intro e he
    rw [insertReplace] at he
    exact Or.inl (by simpa using he)
  | cons e0 rest ih =>
    obtain ⟨k0, v0⟩ := e0
    intro e he
    by_cases h : k0 = k
    · rw [insertReplace, if_pos h] at he
      rcases List.mem_cons.mp he with he1 | he1
      · exact Or.inl he1
      · exact Or.inr (List.mem_cons_of_mem _ he1)
    · rw [insertReplace, if_neg h] at he
      rcases List.mem_cons.mp he with he1 | he1
      · exact Or.inr (by rw [he1]; exact List.mem_cons_self _ _)
      · rcases ih e he1 with h2 | h2
        · exact Or.inl h2
        · exact Or.inr (List.mem_cons_of_mem _ h2)

theorem contains_eq_false_of_ne (l : List String) (k : String) (h : ∀ x ∈ l, x ≠ k) :
    l.contains k = false := by
  cases hc : l.contains k with
  | false => rfl
  | true =>
    have hk : k ∈ l := by simpa using hc
    exact absurd rfl (h k hk)

theorem lookupKey_eq_none_of_ne (l : List (String × Nat)) (k : String)
    (h : ∀ e ∈ l, e.1 ≠ k) :
    lookupKey k l = none := by
  induction l with
  | nil => rfl
  | cons e0 rest ih =>
    obtain ⟨k0, v0⟩ := e0
    rw [lookupKey, if_neg (h (k0, v0) (List.mem_cons_self _ _))]
    exact ih (fun e he => h e (List.mem_cons_of_mem _ he))

theorem pyNormalize_mkSeriesName (i : Nat) :
    pyNormalize (mkSeriesName i) = mkSeriesName i := by
  have hrep : ∀ j : Nat, (List.replicate j 'a').dropWhile pyWS = List.replicate j 'a' := by
    intro j
    cases j with
    | zero => rfl
    | succ m => rw [List.replicate_succ, List.dropWhile_cons]; simp [pyWS]
  unfold pyNormalize mkSeriesName pyLowerL pyStripL
  rw [show (String.mk (List.replicate i 'a')).data = List.replicate i 'a' from rfl]
  rw [List.map_replicate]
  rw [show pyToLower 'a' = 'a' from rfl]
  rw [hrep, List.reverse_replicate, hrep, List.reverse_replicate]

theorem mkSeriesName_length (i : Nat) : (mkSeriesName i).length = i := by
  unfold mkSeriesName
  show (List.replicate i 'a').length = i
  exact List.length_replicate i 'a'

theorem seriesKey_length (i : Nat) :
    (pyNormalize (mkSeriesName i) ++ "_s" ++ toString (1 : Nat)).length = i + 3 := by
  rw [pyNormalize_mkSeriesName]
  rw [String.length_append, String.length_append, mkSeriesName_length]
  rfl

theorem series_check_fresh (s : String) (t : Nat) (st : CacheState)
    (hs : pyNormalize s ≠ "")
    (hc : st.processed_series_cache.contains (pyNormalize s ++ "_s" ++ toString (1 : Nat)) = false)
    (hl : lookupKey (pyNormalize s ++ "_s" ++ toString (1 : Nat)) st.recently_processed = none) :
    (_should_process_series s 1 t (.connected []) st).2
      = ⟨(pyNormalize s ++ "_s" ++ toString (1 : Nat)) :: st.processed_series_cache,
         insertReplace (pyNormalize s ++ "_s" ++ toString (1 : Nat)) t st.recently_processed⟩ := by
  have hc2 : ¬ ((pyNormalize s ++ "_s" ++ toString (1 : Nat)) ∈ st.processed_series_cache) := by
    simpa using hc
  unfold _should_process_series is_series_processed
  simp [hs, hc2, hl]

theorem iterSeriesChecks_length : ∀ (n : Nat) (st : CacheState),
    (∀ e ∈ st.recently_processed, n + 3 < e.1.length) →
    (∀ k ∈ st.processed_series_cache, n + 3 < k.length) →
    (iterSeriesChecks n st).recently_processed.length = st.recently_processed.length + n := by
  intro n
  induction n with
  | zero => intro st _ _; rfl
  | succ m ih =>
    intro st hrp hcache
    have hs : pyNormalize (mkSeriesName (m + 1)) ≠ "" := by
      rw [pyNormalize_mkSeriesName]
      intro hh
      have := congrArg String.length hh
      rw [mkSeriesName_length] at this
      simp at this
    have hkl := seriesKey_length (m + 1)
    have hc : st.processed_series_cache.contains
        (pyNormalize (mkSeriesName (m + 1)) ++ "_s" ++ toString (1 : Nat)) = false := by
      refine contains_eq_false_of_ne _ _ (fun x hx hxx => ?_)
      have h1 := hcache x hx
      rw [hxx, hkl] at h1
      omega
    have hl : lookupKey (pyNormalize (mkSeriesName (m + 1)) ++ "_s" ++ toString (1 : Nat))
        st.recently_processed = none := by
      refine lookupKey_eq_none_of_ne _ _ (fun e he hee => ?_)
      have h1 := hrp e he
      rw [hee, hkl] at h1
      omega
    rw [iterSeriesChecks, series_check_fresh _ _ _ hs hc hl]
    rw [ih _ ?_ ?_]
    · rw [insertReplace_length_of_absent _ _ _ hl]
      omega
    · intro e he
      rcases mem_insertReplace _ _ _ e he with h1 | h1
      · rw [h1]
        show m + 3 < (pyNormalize (mkSeriesName (m + 1)) ++ "_s" ++ toString (1 : Nat)).length
        rw [hkl]
        omega
      · have := hrp e h1
        omega
    · intro k hk
      rcases List.mem_cons.mp hk with h1 | h1
      · rw [h1, hkl]
        omega
      · have := hcache k h1
        omega

/-- C5 counterexample: 1101 series dedup checks for distinct fresh series
drive the shared short-term cache to 1101 entries with no eviction — the
series path of the ledger performs no cleanup — so the cache exceeds
max_cache_entries + cleanup_batch_size = 1100, contradicting the claimed
bound for sequences of dedup-check operations. -/
theorem C5_counterexample :
    (iterSeriesChecks 1101 ⟨[], []⟩).recently_processed.length = 1101 ∧
    CACHE_CONFIG.max_cache_entries + CACHE_CONFIG.cleanup_batch_size = 1100 := by
  constructor
  · have := iterSeriesChecks_length 1101 ⟨[], []⟩ (by intro e he; simp at he)
      (by intro k hk; simp at hk)
    simpa using this
  · rfl

theorem insertReplace_length_le (k : String) (v : Nat) (l : List (String × Nat)) :
    (insertReplace k v l).length ≤ l.length + 1 := by
  induction l with
  | nil => simp [insertReplace]
  | cons e0 rest ih =>
    obtain ⟨k0, v0⟩ := e0
    by_cases h : k0 = k
    · rw [insertReplace, if_pos h]
      simp
    · rw [insertReplace, if_neg h]
      simpa using ih

theorem keys_insertReplace_nodup (k : String) (v : Nat) (l : List (String × Nat))
    (h : (l.map Prod.fst).Nodup) :
    ((insertReplace k v l).map Prod.fst).Nodup := by
  induction l with
  | nil => simp [insertReplace]
  | cons e0 rest ih =>
    obtain ⟨k0, v0⟩ := e0
    rw [List.map_cons, List.nodup_cons] at h
    obtain ⟨hnot, hrest⟩ := h
    by_cases hk : k0 = k
    · rw [insertReplace, if_pos hk, List.map_cons, List.nodup_cons]
      exact ⟨by rw [← hk]; exact hnot, hrest⟩
    · rw [insertReplace, if_neg hk, List.map_cons, List.nodup_cons]
      refine ⟨fun hmem => ?_, ih hrest⟩
      rw [List.mem_map] at hmem
      obtain ⟨e, he, hefst⟩ := hmem
      rcases mem_insertReplace _ _ _ e he with h1 | h1
      · rw [h1] at hefst
        exact hk hefst.symm
      · exact hnot (by rw [← hefst]; exact List.mem_map_of_mem _ h1)

theorem evictOldest_spec (l : List (String × Nat))
    (hnd : (l.map Prod.fst).Nodup) :
    (evictOldest l).length = l.length - CACHE_CONFIG.cleanup_batch_size ∧
    ∀ a ∈ (l.mergeSort (fun a b => decide (a.2 ≤ b.2))).take CACHE_CONFIG.cleanup_batch_size,
      ∀ b ∈ evictOldest l, a.2 ≤ b.2 := by
  have hperm : (l.mergeSort (fun a b => decide (a.2 ≤ b.2))).Perm l :=
    List.mergeSort_perm l _
  have hsorted : List.Pairwise (fun a b => (decide (a.2 ≤ b.2)) = true)
      (l.mergeSort (fun a b => decide (a.2 ≤ b.2))) := by
    refine List.sorted_mergeSort ?_ ?_ l
    · intro a b c h1 h2
      simp only [decide_eq_true_eq] at *
      omega
    · intro a b
      rcases Nat.le_total a.2 b.2 with h | h <;> simp [h]
  have hndsorted : ((l.mergeSort (fun a b => decide (a.2 ≤ b.2))).map Prod.fst).Nodup :=
    ((hperm.map Prod.fst).nodup_iff).mpr hnd
  set sorted := l.mergeSort (fun a b => decide (a.2 ≤ b.2)) with hsorteddef
  set batch := CACHE_CONFIG.cleanup_batch_size with hbatch
  set p : String × Nat → Bool :=
    fun e => !(((sorted.take batch).map Prod.fst).contains e.1) with hp
  have hevict : evictOldest l = l.filter p := rfl
  have hfperm : (l.filter p).Perm (sorted.filter p) := (hperm.filter p).symm
  have hsplit : sorted = sorted.take batch ++ sorted.drop batch :=
    (List.take_append_drop batch sorted).symm
  have hkeysplit : (sorted.map Prod.fst)
      = (sorted.take batch).map Prod.fst ++ (sorted.drop batch).map Prod.fst := by
    rw [← List.map_append, ← hsplit]
  have hdisj : ((sorted.take batch).map Prod.fst).Disjoint
      ((sorted.drop batch).map Prod.fst) := by
    have := hndsorted
    rw [hkeysplit, List.nodup_append] at this
    exact this.2.2
  have hftake : (sorted.take batch).filter p = [] := by
    rw [List.filter_eq_nil_iff]
    intro e he
    have hm : e.1 ∈ (sorted.take batch).map Prod.fst := List.mem_map_of_mem _ he
    have hc : ((sorted.take batch).map Prod.fst).contains e.1 = true :=
      List.elem_eq_true_of_mem hm
    intro hcontra
    rw [hp] at hcontra
    simp only [hc, Bool.not_true] at hcontra
    cases hcontra
  have hfdrop : (sorted.drop batch).filter p = sorted.drop batch := by
    rw [List.filter_eq_self]
    intro e he
    have hmem : e.1 ∈ (sorted.drop batch).map Prod.fst := List.mem_map_of_mem _ he
    have hnotin : ¬ (e.1 ∈ (sorted.take batch).map Prod.fst) := fun hin => hdisj hin hmem
    have hc : ((sorted.take batch).map Prod.fst).contains e.1 = false :=
      contains_eq_false_of_ne _ _ (fun x hx hxx => hnotin (hxx ▸ hx))
    rw [hp]
    simp only [hc, Bool.not_false]
  have hfs : sorted.filter p = sorted.drop batch := by
    conv_lhs => rw [hsplit]
    rw [List.filter_append, hftake, hfdrop, List.nil_append]
  constructor
  · rw [hevict, hfperm.length_eq, hfs, List.length_drop, hperm.length_eq]
  · intro a ha b hb
    have hb2 : b ∈ sorted.drop batch := by
      rw [← hfs]
      exact (hfperm.mem_iff).mp (by rw [← hevict]; exact hb)
    have hpw : List.Pairwise (fun a b => (decide (a.2 ≤ b.2)) = true)
        (sorted.take batch ++ sorted.drop batch) := by
      rw [← hsplit]
      exact hsorted
    rw [List.pairwise_append] at hpw
    exact of_decide_eq_true (hpw.2.2 a ha b hb2)

/-- C5 (amended): eviction lives only in the movie dedup check.  There,
whenever the insert pushes the short-term cache past max_cache_entries
(1000), the cleanup_batch_size (100) entries with the oldest timestamps are
removed: under movie checks the cache never exceeds 1000 entries after an
operation (so never 1000 + 1 = 1001 > 1100 during one), the evicted entries
number exactly 100 and all predate every surviving entry.  The series
dedup check inserts into the same cache with no eviction at all, so the
claimed bound fails for general sequences of dedup checks; see the
counterexample. -/
theorem C5_bounded_eviction :
    (∀ (title : String) (t : Nat) (st : CacheState),
      (st.recently_processed.map Prod.fst).Nodup →
      st.recently_processed.length ≤ CACHE_CONFIG.max_cache_entries →
      (_should_process_movie title t st).2.recently_processed.length
        ≤ CACHE_CONFIG.max_cache_entries) ∧
    (∀ l : List (String × Nat), (l.map Prod.fst).Nodup →
      (evictOldest l).length = l.length - CACHE_CONFIG.cleanup_batch_size ∧
      ∀ a ∈ (l.mergeSort (fun a b => decide (a.2 ≤ b.2))).take CACHE_CONFIG.cleanup_batch_size,
        ∀ b ∈ evictOldest l, a.2 ≤ b.2) ∧
    (∀ (title : String) (t : Nat) (st : CacheState),
      (_should_process_movie title t st).1 = true →
      (_should_process_movie title t st).2.recently_processed
        = (if CACHE_CONFIG.max_cache_entries <
              (insertReplace ("movie_" ++ _clean_title_for_comparison title) t
                st.recently_processed).length
           then evictOldest (insertReplace ("movie_" ++ _clean_title_for_comparison title) t
                st.recently_processed)
           else insertReplace ("movie_" ++ _clean_title_for_comparison title) t
                st.recently_processed)) := by
  have hins : ∀ rp : List (String × Nat), (rp.map Prod.fst).Nodup →
      rp.length ≤ CACHE_CONFIG.max_cache_entries + 1 →
      (if CACHE_CONFIG.max_cache_entries < rp.length then evictOldest rp else rp).length
        ≤ CACHE_CONFIG.max_cache_entries := by
    intro rp hnd hle
    by_cases h : CACHE_CONFIG.max_cache_entries < rp.length
    · rw [if_pos h, (evictOldest_spec rp hnd).1]
      simp only [CACHE_CONFIG] at *
      omega
    · rw [if_neg h]
      omega
  refine ⟨?_, fun l hnd => evictOldest_spec l hnd, ?_⟩
  · intro title t st hnd hlen
    unfold _should_process_movie
    cases hlook : lookupKey ("movie_" ++ _clean_title_for_comparison title)
        st.recently_processed with
    | some last =>
      by_cases hcool : t - last < CACHE_CONFIG.movie_cooldown
      · simp only [hlook]
        rw [if_pos (by simpa using hcool)]
        simpa using hlen
      · simp only [hlook]
        rw [if_neg (by simpa using hcool)]
        simp only []
        refine le_trans ?_ (le_refl _)
        have hnd2 := keys_insertReplace_nodup ("movie_" ++ _clean_title_for_comparison title)
          t st.recently_processed hnd
        have hle2 := insertReplace_length_le ("movie_" ++ _clean_title_for_comparison title)
          t st.recently_processed
        have := hins _ hnd2 (by omega)
        simpa using this
    | none =>
      simp only [hlook]
      rw [if_neg (by simp)]
      have hnd2 := keys_insertReplace_nodup ("movie_" ++ _clean_title_for_comparison title)
        t st.recently_processed hnd
      have hle2 := insertReplace_length_le ("movie_" ++ _clean_title_for_comparison title)
        t st.recently_processed
      have := hins _ hnd2 (by omega)
      simpa using this
  · intro title t st htrue
    unfold _should_process_movie at htrue ⊢
    cases hlook : lookupKey ("movie_" ++ _clean_title_for_comparison title)
        st.recently_processed with
    | some last =>
      simp only [hlook] at htrue ⊢
      by_cases hcool : t - last < CACHE_CONFIG.movie_cooldown
      · rw [if_pos (by simpa using hcool)] at htrue
        simp at htrue
      · rw [if_neg (by simpa using hcool)]
        simp
    | none =>
      simp only [hlook] at htrue ⊢
      rw [if_neg (by simp)]
      simp

/-- C5 witness: one movie check from the empty cache keeps the cache within
the configured maximum. -/
theorem C5_witness :
    (_should_process_movie "Inception" 0 ⟨[], []⟩).2.recently_processed.length
      ≤ CACHE_CONFIG.max_cache_entries :=
  C5_bounded_eviction.1 "Inception" 0 ⟨[], []⟩ (by decide) (by decide)

theorem mem_pyStripL (l : List Char) : ∀ c ∈ pyStripL l, c ∈ l := by
  intro c hc
  unfold pyStripL at hc
  rw [List.mem_reverse] at hc
  have h1 := (List.dropWhile_suffix (l := (l.dropWhile pyWS).reverse) pyWS).sublist.subset hc
  rw [List.mem_reverse] at h1
  exact (List.dropWhile_suffix pyWS).sublist.subset h1

theorem mem_dropTrailWS (l : List Char) : ∀ c ∈ dropTrailWS l, c ∈ l := by
  intro c hc
  unfold dropTrailWS at hc
  rw [List.mem_reverse] at hc
  have h1 := (List.dropWhile_suffix (l := l.reverse) pyWS).sublist.subset hc
  rwa [List.mem_reverse] at h1

theorem mem_subHttpAux : ∀ (b : Bool) (l : List Char), ∀ c ∈ subHttpAux b l, c ∈ l := by
  intro b l
  induction b, l using subHttpAux.induct with
  | case1 b => intro x hx; rw [subHttpAux.eq_1] at hx; cases hx
  | case2 c cs hws ih =>
    intro x hx
    rw [subHttpAux.eq_2, if_pos hws] at hx
    rcases List.mem_cons.mp hx with h | h
    · rw [h]; exact List.mem_cons_self _ _
    · exact List.mem_cons_of_mem _ (ih x h)
  | case3 c cs hws ih =>
    intro x hx
    rw [subHttpAux.eq_2, if_neg hws] at hx
    exact List.mem_cons_of_mem _ (ih x hx)
  | case4 c cs hws ih =>
    intro x hx
    rw [subHttpAux.eq_3, if_pos hws] at hx
    rcases List.mem_cons.mp hx with h | h
    · rw [h]; exact List.mem_cons_self _ _
    · exact List.mem_cons_of_mem _ (ih x h)
  | case5 c cs hws ih =>
    intro x hx
    rw [subHttpAux.eq_3, if_neg hws] at hx
    have := ih x hx
    exact List.mem_cons_of_mem _ (List.mem_cons_of_mem _ (List.mem_cons_of_mem _
      (List.mem_cons_of_mem _ (List.mem_cons_of_mem _ this))))
  | case6 c cs hne ih =>
    intro x hx
    rw [subHttpAux.eq_4 c cs hne] at hx
    rcases List.mem_cons.mp hx with h | h
    · rw [h]; exact List.mem_cons_self _ _
    · exact List.mem_cons_of_mem _ (ih x h)

theorem mem_collapseWSAux : ∀ (l : List Char) (b : Bool),
    ∀ c ∈ collapseWSAux b l, c ∈ l ∨ c = ' ' := by
  intro l
  induction l with
  | nil => intro b x hx; cases hx
  | cons c cs ih =>
    intro b x hx
    rw [collapseWSAux] at hx
    by_cases hws : pyWS c
    · rw [if_pos hws] at hx
      by_cases hb : b
      · rw [if_pos hb] at hx
        rcases ih true x hx with h | h
        · exact Or.inl (List.mem_cons_of_mem _ h)
        · exact Or.inr h
      · rw [if_neg hb] at hx
        rcases List.mem_cons.mp hx with h | h
        · exact Or.inr h
        · rcases ih true x h with h2 | h2
          · exact Or.inl (List.mem_cons_of_mem _ h2)
          · exact Or.inr h2
    · rw [if_neg hws] at hx
      rcases List.mem_cons.mp hx with h | h
      · rw [h]; exact Or.inl (List.mem_cons_self _ _)
      · rcases ih false x h with h2 | h2
        · exact Or.inl (List.mem_cons_of_mem _ h2)
        · exact Or.inr h2

theorem findParenYear_none : ∀ (l : List Char), (∀ c ∈ l, pyDigit c = false) →
    findParenYear l = none := by
  intro l
  induction l using findParenYear.induct with
  | case1 d1 d2 d3 d4 rest h =>
    intro hDF
    simp only [Bool.and_eq_true] at h
    have := hDF d1 (List.mem_cons_of_mem _ (List.mem_cons_self _ _))
    rw [this] at h
    simp at h
  | case2 d1 d2 d3 d4 rest h ih =>
    intro hDF
    rw [findParenYear.eq_1, if_neg h]
    exact ih (fun c hc => hDF c (List.mem_cons_of_mem _ hc))
  | case3 head cs hne ih =>
    intro hDF
    rw [findParenYear.eq_2 head cs hne]
    exact ih (fun c hc => hDF c (List.mem_cons_of_mem _ hc))
  | case4 => intro _; rfl

theorem findBrackYear_none : ∀ (l : List Char), (∀ c ∈ l, pyDigit c = false) →
    findBrackYear l = none := by
  intro l
  induction l using findBrackYear.induct with
  | case1 d1 d2 d3 d4 rest h =>
    intro hDF
    simp only [Bool.and_eq_true] at h
    have := hDF d1 (List.mem_cons_of_mem _ (List.mem_cons_self _ _))
    rw [this] at h
    simp at h
  | case2 d1 d2 d3 d4 rest h ih =>
    intro hDF
    rw [findBrackYear.eq_1, if_neg h]
    exact ih (fun c hc => hDF c (List.mem_cons_of_mem _ hc))
  | case3 head cs hne ih =>
    intro hDF
    rw [findBrackYear.eq_2 head cs hne]
    exact ih (fun c hc => hDF c (List.mem_cons_of_mem _ hc))
  | case4 => intro _; rfl

theorem findTrailYear_none (l : List Char) (hDF : ∀ c ∈ l, pyDigit c = false) :
    findTrailYear l = none := by
  unfold findTrailYear
  split
  next d4 d3 d2 d1 w rest heq =>
    have hd4 : d4 ∈ l := by
      have h1 : d4 ∈ (dropTrailWS l).reverse := by
        rw [heq]; exact List.mem_cons_self _ _
      exact mem_dropTrailWS l _ (List.mem_reverse.mp h1)
    rw [if_neg]
    intro hcond
    simp only [Bool.and_eq_true] at hcond
    rw [hDF d4 hd4] at hcond
    simp at hcond
  next => rfl

theorem findTrailParenYear_none (l : List Char) (hDF : ∀ c ∈ l, pyDigit c = false) :
    findTrailParenYear l = none := by
  unfold findTrailParenYear
  split
  next d4 d3 d2 d1 w rest heq =>
    have hd4 : d4 ∈ l := by
      have h1 : d4 ∈ (dropTrailWS l).reverse := by
        rw [heq]; exact List.mem_cons_of_mem _ (List.mem_cons_self _ _)
      exact mem_dropTrailWS l _ (List.mem_reverse.mp h1)
    rw [if_neg]
    intro hcond
    simp only [Bool.and_eq_true] at hcond
    rw [hDF d4 hd4] at hcond
    simp at hcond
  next => rfl

theorem findLeadYear_none (l : List Char) (hDF : ∀ c ∈ l, pyDigit c = false) :
    findLeadYear l = none := by
  unfold findLeadYear
  split
  next d1 d2 d3 d4 w rest =>
    rw [if_neg]
    intro hcond
    simp only [Bool.and_eq_true] at hcond
    rw [hDF d1 (List.mem_cons_self _ _)] at hcond
    simp at hcond
  next => rfl

theorem grab2_none (l : List Char) (hDF : ∀ c ∈ l, pyDigit c = false) :
    grab2 l = none := by
  match l with
  | [] => rfl
  | [c1] =>
    rw [grab2, hDF c1 (List.mem_cons_self _ _)]
    simp
  | c1 :: c2 :: rest =>
    rw [grab2, hDF c1 (List.mem_cons_self _ _)]
    simp

theorem matchLitCI_subset : ∀ (ps l r : List Char), matchLitCI ps l = some r →
    ∀ c ∈ r, c ∈ l := by
  intro ps
  induction ps with
  | nil =>
    intro l r h
    rw [matchLitCI] at h
    cases h
    exact fun c hc => hc
  | cons p pt ih =>
    intro l r h
    match l with
    | [] => cases h
    | c :: cs =>
      rw [matchLitCI] at h
      by_cases hm : pyToLower c == p
      · rw [if_pos hm] at h
        exact fun x hx => List.mem_cons_of_mem _ (ih cs r h x hx)
      · rw [if_neg hm] at h
        cases h

theorem optSep_none (k : List Char → Option α) (l : List Char)
    (hDF : ∀ c ∈ l, pyDigit c = false)
    (hk : ∀ x : List Char, (∀ c ∈ x, pyDigit c = false) → k x = none) :
    optSep k l = none := by
  match l with
  | [] => rw [optSep]; exact hk [] (fun c hc => by cases hc)
  | c :: cs =>
    rw [optSep]
    by_cases hws : isWSDot c
    · rw [if_pos hws, hk cs (fun x hx => hDF x (List.mem_cons_of_mem _ hx)), hk (c :: cs) hDF]
    · rw [if_neg hws]
      exact hk (c :: cs) hDF

theorem mSE_none (l : List Char) (hDF : ∀ c ∈ l, pyDigit c = false) :
    mSE l = none := by
  match l with
  | [] => rfl
  | c :: cs =>
    rw [mSE]
    by_cases hs : isSChar c
    · rw [if_pos hs, grab2_none cs (fun x hx => hDF x (List.mem_cons_of_mem _ hx))]
    · rw [if_neg hs]

theorem mX_none (l : List Char) (hDF : ∀ c ∈ l, pyDigit c = false) :
    mX l = none := by
  rw [mX, grab2_none l hDF]

theorem mSeasonEpisode_none (l : List Char) (hDF : ∀ c ∈ l, pyDigit c = false) :
    mSeasonEpisode l = none := by
  match l with
  | [] => rfl
  | c :: cs =>
    rw [mSeasonEpisode]
    by_cases hs : isSChar c
    · rw [if_pos hs]
      cases hlit : matchLitCI ['e','a','s','o','n'] cs with
      | none => rfl
      | some r1 =>
        have hr1 : ∀ x ∈ r1, pyDigit x = false := fun x hx =>
          hDF x (List.mem_cons_of_mem _ (matchLitCI_subset _ _ _ hlit x hx))
        exact optSep_none _ r1 hr1 (fun x hx => by simp [grab2_none x hx])
    · rw [if_neg hs]

theorem mS_none (l : List Char) (hDF : ∀ c ∈ l, pyDigit c = false) :
    mS l = none := by
  match l with
  | [] => rfl
  | c :: cs =>
    rw [mS]
    by_cases hs : isSChar c
    · rw [if_pos hs, grab2_none cs (fun x hx => hDF x (List.mem_cons_of_mem _ hx))]
      rfl
    · rw [if_neg hs]

theorem mSeason_none (l : List Char) (hDF : ∀ c ∈ l, pyDigit c = false) :
    mSeason l = none := by
  match l with
  | [] => rfl
  | c :: cs =>
    rw [mSeason]
    by_cases hs : isSChar c
    · rw [if_pos hs]
      cases hlit : matchLitCI ['e','a','s','o','n'] cs with
      | none => rfl
      | some r1 =>
        have hr1 : ∀ x ∈ r1, pyDigit x = false := fun x hx =>
          hDF x (List.mem_cons_of_mem _ (matchLitCI_subset _ _ _ hlit x hx))
        exact optSep_none _ r1 hr1 (fun x hx => by simp [grab2_none x hx])
    · rw [if_neg hs]

theorem scanFind_none_of_DF (m : List Char → Option α)
    (hm : ∀ l2 : List Char, (∀ c ∈ l2, pyDigit c = false) → m l2 = none) :
    ∀ l : List Char, (∀ c ∈ l, pyDigit c = false) → scanFind m l = none := by
  intro l
  induction l with
  | nil => intro _; rfl
  | cons c cs ih =>
    intro hDF
    rw [scanFind, hm (c :: cs) hDF, ih (fun x hx => hDF x (List.mem_cons_of_mem _ hx))]
    rfl

/-- C6 (amended): re-running the extractor is guaranteed to find no year
and no season/episode marker when the title it is applied to contains no
decimal digit — every year pattern and every season pattern requires one.
(Without the digit restriction the claim fails: when several year-like
tokens are present the substitution leaves one behind and a second pass
extracts a fresh year; see the counterexample.) -/
theorem C6_idempotence_digitfree (t : String)
    (hDF : ∀ c ∈ t.data, pyDigit c = false) :
    (_extract_title_and_year t).2 = none ∧ extract_season_series_info t = .notSeries := by
  have hDFpipe : ∀ c ∈ collapseWS (subHttp (pyStripL t.data)), pyDigit c = false := by
    intro c hc
    rcases mem_collapseWSAux _ false c hc with h | h
    · exact hDF c (mem_pyStripL _ _ (mem_subHttpAux false _ c h))
    · rw [h]; rfl
  have hyear : yearCandidate t = none := by
    unfold yearCandidate applyYearPatterns
    rw [findParenYear_none _ hDFpipe, findBrackYear_none _ hDFpipe,
      findTrailYear_none _ hDFpipe, findTrailParenYear_none _ hDFpipe,
      findLeadYear_none _ hDFpipe]
  constructor
  · unfold _extract_title_and_year
    by_cases hempty : t = ""
    · rw [if_pos hempty]
    · rw [if_neg hempty]
      by_cases hc : (decide (cleanedCandidate t ≠ []) && decide ((cleanedCandidate t).length > 2)) = true
      · rw [if_pos hc]
        exact hyear
      · rw [if_neg hc]
  · unfold extract_season_series_info
    rw [scanFind_none_of_DF mSE mSE_none t.data hDF,
      scanFind_none_of_DF mX mX_none t.data hDF,
      scanFind_none_of_DF mSeasonEpisode mSeasonEpisode_none t.data hDF,
      scanFind_none_of_DF mS mS_none t.data hDF,
      scanFind_none_of_DF mSeason mSeason_none t.data hDF]

/-- C6 witness: a digit-free cleaned title (the extractor's own output for
typical inputs) yields no year and no series marker on a second pass. -/
theorem C6_witness :
    (_extract_title_and_year "Inception").2 = none ∧
    extract_season_series_info "Inception" = .notSeries :=
  C6_idempotence_digitfree "Inception" (by decide)

/-- C6 counterexample: the claim as stated fails.  The first pass on
"Dudes 1999 2000" extracts the trailing year 2000 and returns the cleaned
title "Dudes 1999"; running the extractor on that cleaned title finds a
further year, 1999, where the claim demands that none be found. -/
theorem C6_counterexample :
    _extract_title_and_year "Dudes 1999 2000" = ("Dudes 1999", some 2000) ∧
    (_extract_title_and_year ((_extract_title_and_year "Dudes 1999 2000").1)).2
      = some 1999 ∧ some (1999 : Nat) ≠ none := by
  refine ⟨by decide, by decide, by decide⟩

/-- C7: series-marker patterns are tried from most specific
(season+episode) to least specific (season only) and the series name is
the cleaned text before the first matching marker: S01E05 yields season 1,
episode 5 and name "Show Name"; S01 alone yields season 1 and no
episode. -/
theorem C7_series_marker_priority :
    extract_season_series_info "Show.Name.S01E05.1080p.mkv"
      = .series 1 (some 5) "Show Name" ∧
    extract_season_series_info "Show.Name.S01.1080p.mkv"
      = .series 1 none "Show Name" := by
  decide

/-- C8: year detection tries the surrounding patterns in a fixed priority
order and the first match wins, with the matched year removed from the
title: a parenthesized year and a leading year both produce the cleaned
title "Inception" with year 2010. -/
theorem C8_year_priority :
    _extract_title_and_year "Inception (2010)" = ("Inception", some 2010) ∧
    _extract_title_and_year "2010 Inception" = ("Inception", some 2010) := by
  decide

theorem pyStripL_length_le (l : List Char) : (pyStripL l).length ≤ l.length := by
  unfold pyStripL
  rw [List.length_reverse]
  calc ((l.dropWhile pyWS).reverse.dropWhile pyWS).length
      ≤ (l.dropWhile pyWS).reverse.length :=
        (List.dropWhile_suffix pyWS).sublist.length_le
    _ = (l.dropWhile pyWS).length := List.length_reverse _
    _ ≤ l.length := (List.dropWhile_suffix pyWS).sublist.length_le

/-- C9 (amended): text and caption extraction cap the cleaned title at 100
characters.  (The claim as stated also covers the filename path, which
applies no cap; see the counterexample.) -/
theorem C9_title_cap (s : String) : ((_extract_title_and_year s).1).length ≤ 100 := by
  unfold _extract_title_and_year
  by_cases h : s = ""
  · rw [if_pos h]
    decide
  · rw [if_neg h]
    by_cases hc : (decide (cleanedCandidate s ≠ []) && decide ((cleanedCandidate s).length > 2)) = true
    · rw [if_pos hc]
      show (cleanedCandidate s).length ≤ 100
      unfold cleanedCandidate
      calc (pyStripL (((applyYearPatterns (collapseWS (subHttp (pyStripL s.data)))).1).take 100)).length
          ≤ (((applyYearPatterns (collapseWS (subHttp (pyStripL s.data)))).1).take 100).length :=
            pyStripL_length_le _
        _ ≤ 100 := by rw [List.length_take]; exact Nat.min_le_left _ _
    · rw [if_neg hc]
      decide

set_option maxRecDepth 100000 in
/-- C9 counterexample: the filename extractor applies no length cap.  A
101-character alphanumeric filename (plus extension) flows through the
non-series filename path unchanged and is returned with all 101
characters, exceeding the claimed maximum of 100. -/
theorem C9_counterexample :
    ((_extract_title_and_year_from_filename
        (String.mk (List.replicate 101 'a') ++ ".mkv")).1).length = 101 ∧ 100 < 101 := by
  refine ⟨by decide, by decide⟩

/-- C10: text and caption extraction return a title only when the cleaned,
truncated title is longer than 2 characters; whenever it has length 2 or
less the extractor returns the empty no-title result ("", None). -/
theorem C10_short_title_empty (s : String)
    (h : (cleanedCandidate s).length ≤ 2) :
    _extract_title_and_year s = ("", none) := by
  unfold _extract_title_and_year
  by_cases hempty : s = ""
  · rw [if_pos hempty]
  · rw [if_neg hempty]
    rw [if_neg]
    intro hc
    rw [Bool.and_eq_true, decide_eq_true_eq, decide_eq_true_eq] at hc
    omega

/-- C10 witness: the genuine short title Up is rejected. -/
theorem C10_witness :
    (cleanedCandidate "Up").length ≤ 2 ∧ _extract_title_and_year "Up" = ("", none) :=
  ⟨by decide, C10_short_title_empty "Up" (by decide)⟩
